import Mathlib

/-! # OpenGL art gallery: camera and start-up logic of `main.cpp`

A shallow embedding of the camera/input code of `src/main.cpp`
(`mouse_callback`, `scroll_callback`, `processInput`, the start-up and render
loop of `main`, the vertex-array binds and draw calls of one frame) and the
properties its specification states about it.

Scalars: the program computes in `float`/`double`; the specification states
its properties over exact arithmetic, so every definition below is written over
an arbitrary linearly ordered field `α` (executable at `α = ℚ`), and the
functions the program takes from libm / glm that are not field operations
(`cos`, `sin`, `sqrt`, the constant `π` behind `glm::radians`) are supplied by a
record `MathLib α`.  Theorems about trigonometry instantiate it with the real
functions (`realMath`).  The angle update of `mouse_callback` is given a second
time in the program's own number types (`mouse_callback_binary32`: `float`
globals, `double` samples), for the behaviour that depends on the narrowing.
-/

namespace Gallery

/-! ## Vectors (`glm::vec3`) -/

/-- The type `glm::vec3`. -/
@[ext]
structure Vec3 (α : Type) where
  x : α
  y : α
  z : α
deriving DecidableEq, Repr

/-- The functions of the C/GLM maths libraries used by the program that are not
field operations: `cos`, `sin`, `sqrt` and the constant `π`. -/
structure MathLib (α : Type) where
  cos : α → α
  sin : α → α
  sqrt : α → α
  pi : α

section Defs

variable {α : Type} [LinearOrderedField α]

namespace Vec3

/-- Component-wise sum, `a + b` (used by `+=`). -/
def add (a b : Vec3 α) : Vec3 α := ⟨a.x + b.x, a.y + b.y, a.z + b.z⟩

/-- Component-wise difference, `a - b` (used by `-=`). -/
def sub (a b : Vec3 α) : Vec3 α := ⟨a.x - b.x, a.y - b.y, a.z - b.z⟩

/-- Scalar times vector, `k * v`. -/
def smul (k : α) (v : Vec3 α) : Vec3 α := ⟨k * v.x, k * v.y, k * v.z⟩

/-- Vector times scalar, `v * k`. -/
def muls (v : Vec3 α) (k : α) : Vec3 α := ⟨v.x * k, v.y * k, v.z * k⟩

/-- The function `glm::dot`. -/
def dot (a b : Vec3 α) : α := a.x * b.x + a.y * b.y + a.z * b.z

/-- The function `glm::cross`:
`(x.y*y.z - y.y*x.z, x.z*y.x - y.z*x.x, x.x*y.y - y.x*x.y)`. -/
def cross (a b : Vec3 α) : Vec3 α :=
  ⟨a.y * b.z - b.y * a.z, a.z * b.x - b.z * a.x, a.x * b.y - b.x * a.y⟩

end Vec3

/-- The function `glm::inversesqrt`: `1 / sqrt(x)`. -/
def inversesqrt (M : MathLib α) (x : α) : α := 1 / M.sqrt x

/-- The function `glm::length`: `sqrt(dot(v, v))`. -/
def length (M : MathLib α) (v : Vec3 α) : α := M.sqrt (Vec3.dot v v)

/-- The function `glm::normalize`: `v * inversesqrt(dot(v, v))`.  The divisor
is `sqrt(dot(v, v))`; it is zero exactly when the call divides by zero. -/
def normalize (M : MathLib α) (v : Vec3 α) : Vec3 α :=
  Vec3.muls v (inversesqrt M (Vec3.dot v v))

/-- The function `glm::radians`: degrees times `π / 180`. -/
def radians (M : MathLib α) (degrees : α) : α := degrees * (M.pi / 180)

/-! ## Program state (the globals of `main.cpp`) -/

/-- Constant `SCR_WIDTH = 1280`. -/
def SCR_WIDTH : Nat := 1280

/-- Constant `SCR_HEIGHT = 720`. -/
def SCR_HEIGHT : Nat := 720

/-- The global `cameraUp(0, 1, 0)`; no function of the program assigns it. -/
def cameraUp : Vec3 α := ⟨0, 1, 0⟩

/-- The mutable globals of `main.cpp`. -/
structure State (α : Type) where
  cameraYaw : α
  cameraPitch : α
  cameraPos : Vec3 α
  cameraFront : Vec3 α
  deltaTime : α
  lastFrame : α
  lastX : α
  lastY : α
  firstMouse : Bool
  fov : α
deriving DecidableEq, Repr

/-- The initial values of the globals (lines 17-24, 144-146, 182). -/
def initialState : State α where
  cameraYaw := -90
  cameraPitch := 0
  cameraPos := ⟨0, 3 / 2, 3⟩
  cameraFront := ⟨0, 0, -1⟩
  deltaTime := 0
  lastFrame := 0
  lastX := (SCR_WIDTH : α) / 2
  lastY := (SCR_HEIGHT : α) / 2
  firstMouse := true
  fov := 45

/-- The keys `processInput` polls with `glfwGetKey(..) == GLFW_PRESS`. -/
structure Keys where
  w : Bool
  s : Bool
  a : Bool
  d : Bool
deriving DecidableEq, Repr

/-! ## The input handlers -/

/-- The constant `sensitivity = 0.1f` of `mouse_callback`. -/
def sensitivity : α := 1 / 10

/-- The vector `front` assembled at lines 174-177 from the stored angles. -/
def frontOf (M : MathLib α) (yaw pitch : α) : Vec3 α :=
  ⟨M.cos (radians M yaw) * M.cos (radians M pitch),
   M.sin (radians M pitch),
   M.sin (radians M yaw) * M.cos (radians M pitch)⟩

/-- The function `mouse_callback` (lines 148-179). -/
def mouse_callback (M : MathLib α) (st : State α) (xpos ypos : α) : State α :=
  let st := if st.firstMouse then
      { st with lastX := xpos, lastY := ypos, firstMouse := false }
    else st
  let xOffset := xpos - st.lastX
  let yOffset := st.lastY - ypos
  let st := { st with lastX := xpos, lastY := ypos }
  let xOffset := xOffset * sensitivity
  let yOffset := yOffset * sensitivity
  let st := { st with cameraYaw := st.cameraYaw + xOffset }
  let st := { st with cameraPitch := st.cameraPitch + yOffset }
  let st := if st.cameraPitch > 89 then { st with cameraPitch := 89 } else st
  let st := if st.cameraPitch < -89 then { st with cameraPitch := -89 } else st
  let front := frontOf M st.cameraYaw st.cameraPitch
  { st with cameraFront := normalize M front }

/-- The function `scroll_callback` (lines 184-190); `xoffset` is unused. -/
def scroll_callback (st : State α) (_xoffset yoffset : α) : State α :=
  let st := { st with fov := st.fov - yoffset }
  let st := if st.fov < 1 then { st with fov := 1 } else st
  let st := if st.fov > 45 then { st with fov := 45 } else st
  st

/-- The function `processInput` (lines 126-142). -/
def processInput (M : MathLib α) (st : State α) (keys : Keys) : State α :=
  let cameraSpeed := 5 / 2 * st.deltaTime
  let cameraFrontXZ := normalize M ⟨st.cameraFront.x, 0, st.cameraFront.z⟩
  let rightXZ := normalize M (Vec3.cross cameraFrontXZ cameraUp)
  let st := if keys.w then
      { st with cameraPos := Vec3.add st.cameraPos (Vec3.smul cameraSpeed cameraFrontXZ) }
    else st
  let st := if keys.s then
      { st with cameraPos := Vec3.sub st.cameraPos (Vec3.smul cameraSpeed cameraFrontXZ) }
    else st
  let st := if keys.a then
      { st with cameraPos := Vec3.sub st.cameraPos (Vec3.smul cameraSpeed rightXZ) }
    else st
  let st := if keys.d then
      { st with cameraPos := Vec3.add st.cameraPos (Vec3.smul cameraSpeed rightXZ) }
    else st
  { st with cameraPos := { st.cameraPos with y := 3 / 2 } }

/-- The local `cameraFrontXZ` of `processInput` (line 129), as a function of
the forward vector. -/
def cameraFrontXZ (M : MathLib α) (front : Vec3 α) : Vec3 α :=
  normalize M ⟨front.x, 0, front.z⟩

/-- The local `rightXZ` of `processInput` (line 130), as a function of the
forward vector. -/
def rightXZ (M : MathLib α) (front : Vec3 α) : Vec3 α :=
  normalize M (Vec3.cross (cameraFrontXZ M front) cameraUp)

/-- Indicator of a key state: `1` if the key is pressed, `0` otherwise. -/
def pressed (key : Bool) : α := if key then 1 else 0

/-! ## Start-up and render loop (`main`) -/

/-- The two shader stages `createShaderProgram` compiles. -/
inductive ShaderType where
  | vertex
  | fragment
deriving DecidableEq, Repr

/-- An input event delivered by `glfwPollEvents` to a registered callback:
cursor position (`mouse_callback`) or scroll (`scroll_callback`).  The
framebuffer-size callback only calls `glViewport` and touches no global. -/
inductive Event (α : Type) where
  | cursorPos (xpos ypos : α)
  | scroll (xoffset yoffset : α)
deriving DecidableEq, Repr

/-- What the window system, the GL driver and the image decoder answer to the
calls `main` makes: the inputs of the run. -/
structure Platform (α : Type) where
  /-- Whether `glfwCreateWindow(..)` returned a window (not `NULL`). -/
  windowCreated : Bool
  /-- Whether `gladLoadGLLoader(..)` returned non-zero. -/
  gladLoaded : Bool
  /-- The `GL_COMPILE_STATUS` of each shader. -/
  compileStatus : ShaderType → Bool
  /-- The `GL_LINK_STATUS` of the program. -/
  linkStatus : Bool
  /-- Whether `stbi_load(path, ..)` returned data. -/
  textureData : String → Bool
  /-- The value of `glfwWindowShouldClose(window)` at the loop test before frame `i`. -/
  shouldClose : Nat → Bool
  /-- The value of `glfwGetTime()` in frame `i`. -/
  time : Nat → α
  /-- The key state polled in frame `i`. -/
  keys : Nat → Keys
  /-- The callbacks run by `glfwPollEvents()` at the end of frame `i`. -/
  events : Nat → List (Event α)

/-- The function `compileShader` (lines 32-47), as the lines it prints: the
compile status is checked, a failure is logged (the driver's info log that
follows the heading is left out), the shader is returned either way. -/
def compileShader (P : Platform α) (type : ShaderType) : List String :=
  if !P.compileStatus type then ["Shader Compilation Error:"] else []

/-- The function `createShaderProgram` (lines 58-83), as the lines it prints: both
stages are compiled, the program is linked, a link failure is logged (without
the driver's info log), and the program is returned either way. -/
def createShaderProgram (P : Platform α) : List String :=
  let out := compileShader P ShaderType.vertex
  let out := out ++ compileShader P ShaderType.fragment
  let out := out ++ (if !P.linkStatus then ["Shader Program Linking Error:"] else [])
  out

/-- The function `loadTexture` (lines 85-120), as the lines it prints: a failed
load is logged and the texture id is returned either way. -/
def loadTexture (P : Platform α) (path : String) : List String :=
  if P.textureData path then [] else ["Failed to load texture: " ++ path]

/-- Dispatch of one polled event to the callback registered for it
(lines 218-219). -/
def dispatch (M : MathLib α) (st : State α) : Event α → State α
  | Event.cursorPos xpos ypos => mouse_callback M st xpos ypos
  | Event.scroll xoffset yoffset => scroll_callback st xoffset yoffset

/-- The render loop (lines 370-661) on the globals, `i` being the index of
the next frame; `none` when `fuel` frames were not enough to reach the
window-close condition.  The body holds no `break` or `return`. -/
def renderLoop (M : MathLib α) (P : Platform α) : Nat → Nat → State α → Option (State α)
  | 0, _, _ => none
  | fuel + 1, i, st =>
    if P.shouldClose i then some st
    else
      let currentFrame := P.time i
      let st := { st with deltaTime := currentFrame - st.lastFrame }
      let st := { st with lastFrame := currentFrame }
      let st := processInput M st (P.keys i)
      let st := (P.events i).foldl (dispatch M) st
      renderLoop M P fuel (i + 1) st

/-- One iteration of the body of the render loop (lines 371-660) on the
globals, for frame `i`: the time step, `processInput`, then the callbacks run by
`glfwPollEvents`. -/
def frame (M : MathLib α) (P : Platform α) (i : Nat) (st : State α) : State α :=
  let currentFrame := P.time i
  let st := { st with deltaTime := currentFrame - st.lastFrame }
  let st := { st with lastFrame := currentFrame }
  let st := processInput M st (P.keys i)
  (P.events i).foldl (dispatch M) st

/-- The globals after the `k` consecutive iterations `i, ..., i + k - 1` of
the loop body. -/
def frames (M : MathLib α) (P : Platform α) : Nat → Nat → State α → State α
  | _, 0, st => st
  | i, k + 1, st => frames M P (i + 1) k (frame M P i st)

/-- The lines `main` prints between start-up and the render loop (lines
224-235): the diagnostics of `createShaderProgram` and of the eight
`loadTexture` calls, in program order. -/
def startupOutput (P : Platform α) : List String :=
  createShaderProgram P ++ loadTexture P "textures/wall.jpg" ++
    loadTexture P "textures/floor.jpg" ++ loadTexture P "textures/painting.png" ++
    loadTexture P "textures/painting2.jpg" ++ loadTexture P "textures/painting3.jpg" ++
    loadTexture P "textures/painting4.jpg" ++ loadTexture P "textures/ceiling.jpg" ++
    loadTexture P "textures/cube.jpg"

/-- What a terminated run of `main` leaves: the exit code and the lines
printed to standard output. -/
structure Exit where
  code : Int
  out : List String
deriving DecidableEq, Repr

/-- The function `main` (lines 193-666): `none` when the render loop did not
end within `fuel` frames. -/
def main (M : MathLib α) (P : Platform α) (fuel : Nat) : Option Exit :=
  if !P.windowCreated then
    some ⟨-1, ["Failed to create GLFW window"]⟩
  else if !P.gladLoaded then
    some ⟨-1, ["Failed to initialize GLAD"]⟩
  else
    let out := createShaderProgram P
    let out := out ++ loadTexture P "textures/wall.jpg"
    let out := out ++ loadTexture P "textures/floor.jpg"
    let out := out ++ loadTexture P "textures/painting.png"
    let out := out ++ loadTexture P "textures/painting2.jpg"
    let out := out ++ loadTexture P "textures/painting3.jpg"
    let out := out ++ loadTexture P "textures/painting4.jpg"
    let out := out ++ loadTexture P "textures/ceiling.jpg"
    let out := out ++ loadTexture P "textures/cube.jpg"
    match renderLoop M P fuel 0 initialState with
    | none => none
    | some _ => some ⟨0, out⟩

end Defs

/-- The real-number maths library: `cos`, `sin`, `sqrt` and `π` of `ℝ`. -/
noncomputable def realMath : MathLib ℝ := ⟨Real.cos, Real.sin, Real.sqrt, Real.pi⟩

/-! ## The number types of `mouse_callback`

The globals `lastX`, `lastY`, `cameraYaw`, `cameraPitch` and the locals
`xOffset`, `yOffset` are `float`; the parameters `xpos`, `ypos` are `double`.
Values are rationals; a store to a `float` rounds to binary32 and a `double`
operation rounds to binary64 (IEEE 754, round to nearest, ties to even).
Overflow and subnormal numbers are not modelled. -/

/-- Rounding of a rational to the nearest integer, ties to the even one. -/
def roundHalfEven (q : ℚ) : ℤ :=
  if q - ⌊q⌋ < 1 / 2 then ⌊q⌋
  else if 1 / 2 < q - ⌊q⌋ then ⌊q⌋ + 1
  else if ⌊q⌋ % 2 = 0 then ⌊q⌋ else ⌊q⌋ + 1

/-- Rounding to `p` significant binary digits: for `2 ^ e ≤ |x| < 2 ^ (e + 1)`
the nearest multiple of `2 ^ (e - (p - 1))`, ties to even. -/
def roundTo (p : ℕ) (x : ℚ) : ℚ :=
  if x = 0 then 0
  else roundHalfEven (x / (2 : ℚ) ^ (Int.log 2 |x| - ((p : ℤ) - 1))) *
    (2 : ℚ) ^ (Int.log 2 |x| - ((p : ℤ) - 1))

/-- Conversion to `float` (binary32: 24 significant binary digits). -/
def toFloat (x : ℚ) : ℚ := roundTo 24 x

/-- Rounding of a `double` result (binary64: 53 significant binary digits). -/
def toDouble (x : ℚ) : ℚ := roundTo 53 x

/-- The angle and pointer update of `mouse_callback` (lines 148-172) in the
program's own number types: `lastX = xpos` narrows the `double` sample to
`float` (lines 152-153, 159-160), `xpos - lastX` is a `double` subtraction
stored to a `float` (lines 157-158), the products with `sensitivity = 0.1f`
and the sums are `float` operations (lines 162-166).  The forward vector of
lines 174-178 is left as it is. -/
def mouse_callback_binary32 (st : State ℚ) (xpos ypos : ℚ) : State ℚ :=
  let st := if st.firstMouse then
      { st with lastX := toFloat xpos, lastY := toFloat ypos, firstMouse := false }
    else st
  let xOffset := toFloat (toDouble (xpos - st.lastX))
  let yOffset := toFloat (toDouble (st.lastY - ypos))
  let st := { st with lastX := toFloat xpos, lastY := toFloat ypos }
  let xOffset := toFloat (xOffset * toFloat (1 / 10))
  let yOffset := toFloat (yOffset * toFloat (1 / 10))
  let st := { st with cameraYaw := toFloat (st.cameraYaw + xOffset) }
  let st := { st with cameraPitch := toFloat (st.cameraPitch + yOffset) }
  let st := if st.cameraPitch > 89 then { st with cameraPitch := 89 } else st
  let st := if st.cameraPitch < -89 then { st with cameraPitch := -89 } else st
  st

/-! ## Vertex data and the draw-call sequence of one frame -/

/-- The array `vertices` (lines 270-278): the quad, 5 floats per vertex
(position, texture coordinate). -/
def vertices : List ℚ :=
  [-1/2, -1/2, 0, 0, 0,
    1/2, -1/2, 0, 1, 0,
    1/2,  1/2, 0, 1, 1,
    1/2,  1/2, 0, 1, 1,
   -1/2,  1/2, 0, 0, 1,
   -1/2, -1/2, 0, 0, 0]

/-- The array `cubeVertices` (lines 299-342): the cube, 5 floats per vertex. -/
def cubeVertices : List ℚ :=
  [-1/2, -1/2, -1/2, 0, 0,
    1/2, -1/2, -1/2, 1, 0,
    1/2,  1/2, -1/2, 1, 1,
    1/2,  1/2, -1/2, 1, 1,
   -1/2,  1/2, -1/2, 0, 1,
   -1/2, -1/2, -1/2, 0, 0,
   -1/2, -1/2,  1/2, 0, 0,
    1/2, -1/2,  1/2, 1, 0,
    1/2,  1/2,  1/2, 1, 1,
    1/2,  1/2,  1/2, 1, 1,
   -1/2,  1/2,  1/2, 0, 1,
   -1/2, -1/2,  1/2, 0, 0,
   -1/2,  1/2,  1/2, 1, 0,
   -1/2,  1/2, -1/2, 1, 1,
   -1/2, -1/2, -1/2, 0, 1,
   -1/2, -1/2, -1/2, 0, 1,
   -1/2, -1/2,  1/2, 0, 0,
   -1/2,  1/2,  1/2, 1, 0,
    1/2,  1/2,  1/2, 1, 0,
    1/2,  1/2, -1/2, 1, 1,
    1/2, -1/2, -1/2, 0, 1,
    1/2, -1/2, -1/2, 0, 1,
    1/2, -1/2,  1/2, 0, 0,
    1/2,  1/2,  1/2, 1, 0,
   -1/2, -1/2, -1/2, 0, 1,
    1/2, -1/2, -1/2, 1, 1,
    1/2, -1/2,  1/2, 1, 0,
    1/2, -1/2,  1/2, 1, 0,
   -1/2, -1/2,  1/2, 0, 0,
   -1/2, -1/2, -1/2, 0, 1,
   -1/2,  1/2, -1/2, 0, 1,
    1/2,  1/2, -1/2, 1, 1,
    1/2,  1/2,  1/2, 1, 0,
    1/2,  1/2,  1/2, 1, 0,
   -1/2,  1/2,  1/2, 0, 0,
   -1/2,  1/2, -1/2, 0, 1]

/-- Floats per vertex: the stride `5 * sizeof(float)` both arrays are laid out
with (`glVertexAttribPointer`, lines 290-292 and 358-362). -/
def floatsPerVertex : Nat := 5

/-- The vertex arrays a frame binds: `0`, `VAO` (the quad) and `cubeVAO`. -/
inductive VertexArray where
  | zero
  | VAO
  | cubeVAO
deriving DecidableEq, Repr

/-- Number of vertices held by the buffer a vertex array reads from:
`vertices` was uploaded for `VAO` (lines 285-287), `cubeVertices` for
`cubeVAO` (lines 350-354); array `0` has no buffer. -/
def vertexCount : VertexArray → Nat
  | VertexArray.zero => 0
  | VertexArray.VAO => vertices.length / floatsPerVertex
  | VertexArray.cubeVAO => cubeVertices.length / floatsPerVertex

/-- The calls of a frame that bind a vertex array or draw from it. -/
inductive GLCall where
  | glBindVertexArray (array : VertexArray)
  | glDrawArrays (first count : Nat)
deriving DecidableEq, Repr

/-- The `glBindVertexArray` / `glDrawArrays` calls of one iteration of the
render loop, in program order (lines 403-655). -/
def frameCalls : List GLCall :=
  [ -- floors 1-5 (lines 403-444)
    GLCall.glBindVertexArray VertexArray.VAO, GLCall.glDrawArrays 0 6,
    GLCall.glBindVertexArray VertexArray.VAO, GLCall.glDrawArrays 0 6,
    GLCall.glBindVertexArray VertexArray.VAO, GLCall.glDrawArrays 0 6,
    GLCall.glBindVertexArray VertexArray.VAO, GLCall.glDrawArrays 0 6,
    GLCall.glBindVertexArray VertexArray.VAO, GLCall.glDrawArrays 0 6,
    -- ceilings 1-5 (lines 456-505)
    GLCall.glBindVertexArray VertexArray.VAO, GLCall.glDrawArrays 0 6,
    GLCall.glBindVertexArray VertexArray.VAO, GLCall.glDrawArrays 0 6,
    GLCall.glBindVertexArray VertexArray.VAO, GLCall.glDrawArrays 0 6,
    GLCall.glBindVertexArray VertexArray.VAO, GLCall.glDrawArrays 0 6,
    GLCall.glBindVertexArray VertexArray.VAO, GLCall.glDrawArrays 0 6,
    -- walls (lines 515, 523, 531, 538, 545, 553, 561, 568, 577, 585, 593, 600)
    GLCall.glDrawArrays 0 36, GLCall.glDrawArrays 0 36, GLCall.glDrawArrays 0 36,
    GLCall.glDrawArrays 0 36, GLCall.glDrawArrays 0 36, GLCall.glDrawArrays 0 36,
    GLCall.glDrawArrays 0 36, GLCall.glDrawArrays 0 36, GLCall.glDrawArrays 0 36,
    GLCall.glDrawArrays 0 36, GLCall.glDrawArrays 0 36, GLCall.glDrawArrays 0 36,
    -- paintings 1-4 (lines 609, 618, 626, 635)
    GLCall.glDrawArrays 0 36, GLCall.glDrawArrays 0 36, GLCall.glDrawArrays 0 36,
    GLCall.glDrawArrays 0 36,
    -- the rotating cube (lines 638-655)
    GLCall.glBindVertexArray VertexArray.cubeVAO, GLCall.glDrawArrays 0 36,
    GLCall.glBindVertexArray VertexArray.zero ]

/-- A draw call together with the vertex array bound when it is issued. -/
structure Draw where
  bound : VertexArray
  first : Nat
  count : Nat
deriving DecidableEq, Repr

/-- The draw calls of a call sequence, each with the array set by the most
recent `glBindVertexArray`; the first argument is the array bound before the
sequence. -/
def draws : VertexArray → List GLCall → List Draw
  | _, [] => []
  | _, GLCall.glBindVertexArray array :: calls => draws array calls
  | bound, GLCall.glDrawArrays first count :: calls =>
    ⟨bound, first, count⟩ :: draws bound calls

/-- Whether the vertex range a draw call requests lies within the buffer of the
bound vertex array. -/
def Draw.inRange (d : Draw) : Bool := d.first + d.count ≤ vertexCount d.bound

/-! ## Properties -/

section Theorems

variable {α : Type} [LinearOrderedField α]

/-- The two sequential tests of `mouse_callback` on the pitch are the clamp
to `[-89, 89]`. -/
theorem clamp_pitch_eq (p : α) :
    (if (if p > 89 then (89 : α) else p) < -89 then (-89 : α)
      else (if p > 89 then (89 : α) else p)) = max (-89) (min 89 p) := by
  by_cases h1 : p > 89
  · have h2 : ¬ ((89 : α) < -89) := by norm_num
    rw [if_pos h1, if_neg h2, min_eq_left (le_of_lt h1), max_eq_right (by norm_num)]
  · have h3 : p ≤ 89 := not_lt.mp h1
    rw [if_neg h1, min_eq_right h3]
    by_cases h4 : p < -89
    · rw [if_pos h4, max_eq_left (le_of_lt h4)]
    · rw [if_neg h4, max_eq_right (not_lt.mp h4)]

/-- The state `mouse_callback` leaves, in closed form: the deltas are taken
against the sample itself when the first-movement flag is set. -/
theorem mouse_callback_eq (M : MathLib α) (st : State α) (xpos ypos : α) :
    mouse_callback M st xpos ypos =
      { st with
        lastX := xpos
        lastY := ypos
        firstMouse := false
        cameraYaw := st.cameraYaw +
          (xpos - (if st.firstMouse then xpos else st.lastX)) * sensitivity
        cameraPitch := max (-89) (min 89 (st.cameraPitch +
          ((if st.firstMouse then ypos else st.lastY) - ypos) * sensitivity))
        cameraFront := normalize M (frontOf M
          (st.cameraYaw + (xpos - (if st.firstMouse then xpos else st.lastX)) * sensitivity)
          (max (-89) (min 89 (st.cameraPitch +
            ((if st.firstMouse then ypos else st.lastY) - ypos) * sensitivity)))) } := by
  cases st with
  | mk yaw pitch pos front dt lf lx ly fm fv =>
    cases fm
    · simp only [mouse_callback, Bool.false_eq_true, if_false]
      rw [← clamp_pitch_eq]
      split_ifs <;> rfl
    · simp only [mouse_callback, if_true]
      rw [← clamp_pitch_eq]
      split_ifs <;> rfl

/-! ### Pitch clamp and pointer deltas (`mouse_callback`) -/

/-- Claim C2: for a state whose first-movement flag is cleared, with
`dx = x - lastX` and `dy = y - lastY`, `mouse_callback` sets the yaw to
`yaw + 0.1 * dx` (not clamped), the pitch to the clamp to `[-89, 89]` of
`pitch + 0.1 * (-dy)`, and the last pointer position to `(x, y)`. -/
theorem mouse_callback_subsequent_sample (M : MathLib α) (st : State α) (xpos ypos : α)
    (hflag : st.firstMouse = false) :
    (mouse_callback M st xpos ypos).cameraYaw = st.cameraYaw + 1 / 10 * (xpos - st.lastX) ∧
    (mouse_callback M st xpos ypos).cameraPitch =
      max (-89) (min 89 (st.cameraPitch + 1 / 10 * (-(ypos - st.lastY)))) ∧
    (mouse_callback M st xpos ypos).lastX = xpos ∧
    (mouse_callback M st xpos ypos).lastY = ypos := by
  rw [mouse_callback_eq]
  simp only [sensitivity, hflag, Bool.false_eq_true, if_false]
  refine ⟨by ring, ?_, trivial, trivial⟩
  congr 2
  ring

/-- Claim C2, witness: the state with the flag cleared, yaw `-90`, pitch `0`,
last position `(640, 360)`, and the sample `(650, 350)`. -/
theorem mouse_callback_subsequent_sample_witness :
    ({ (initialState : State ℝ) with firstMouse := false }).firstMouse = false ∧
    ((mouse_callback realMath { (initialState : State ℝ) with firstMouse := false }
        650 350).cameraYaw = -89 ∧
      (mouse_callback realMath { (initialState : State ℝ) with firstMouse := false }
        650 350).cameraPitch = 1 ∧
      (mouse_callback realMath { (initialState : State ℝ) with firstMouse := false }
        650 350).lastX = 650 ∧
      (mouse_callback realMath { (initialState : State ℝ) with firstMouse := false }
        650 350).lastY = 350) := by
  have h := mouse_callback_subsequent_sample realMath
    { (initialState : State ℝ) with firstMouse := false } 650 350 rfl
  refine ⟨rfl, ?_, ?_, h.2.2.1, h.2.2.2⟩
  · rw [h.1]
    simp only [initialState, SCR_WIDTH]
    norm_num
  · rw [h.2.1]
    simp only [initialState, SCR_HEIGHT]
    norm_num

/-- Over exact arithmetic (the sample and the stored last position of one
number type): for a state whose first-movement flag is set and whose pitch is
within `[-89, 89]`, and for every sample `(x, y)`, `mouse_callback` leaves yaw
and pitch unchanged, stores `(x, y)` as the last pointer position and clears
the flag. -/
theorem mouse_callback_first_sample (M : MathLib α) (st : State α) (xpos ypos : α)
    (hflag : st.firstMouse = true) (hlo : -89 ≤ st.cameraPitch) (hhi : st.cameraPitch ≤ 89) :
    (mouse_callback M st xpos ypos).cameraYaw = st.cameraYaw ∧
    (mouse_callback M st xpos ypos).cameraPitch = st.cameraPitch ∧
    (mouse_callback M st xpos ypos).lastX = xpos ∧
    (mouse_callback M st xpos ypos).lastY = ypos ∧
    (mouse_callback M st xpos ypos).firstMouse = false := by
  rw [mouse_callback_eq]
  simp only [hflag, if_true, sub_self, zero_mul, add_zero]
  refine ⟨trivial, ?_, trivial, trivial, trivial⟩
  show max (-89) (min 89 st.cameraPitch) = st.cameraPitch
  rw [min_eq_right hhi, max_eq_right hlo]

/-! ### The first sample in the program's number types -/

/-- The binary exponent of a non-zero rational. -/
theorem log_abs_eq (x : ℚ) (e : ℤ) (h1 : (2 : ℚ) ^ e ≤ |x|) (h2 : |x| < (2 : ℚ) ^ (e + 1)) :
    Int.log 2 |x| = e := by
  have hpos : 0 < |x| := lt_of_lt_of_le (zpow_pos (by norm_num) e) h1
  have ha : e ≤ Int.log 2 |x| :=
    (Int.zpow_le_iff_le_log (by norm_num) hpos).mp (by exact_mod_cast h1)
  have hb : Int.log 2 |x| < e + 1 :=
    (Int.lt_zpow_iff_log_lt (by norm_num) hpos).mp (by exact_mod_cast h2)
  omega

/-- An integer within a half of `q` is what `q` rounds to. -/
theorem roundHalfEven_eq (q : ℚ) (m : ℤ) (h1 : (m : ℚ) - 1 / 2 < q)
    (h2 : q < (m : ℚ) + 1 / 2) : roundHalfEven q = m := by
  unfold roundHalfEven
  by_cases hq : (m : ℚ) ≤ q
  · have hf : ⌊q⌋ = m := Int.floor_eq_iff.mpr ⟨hq, by linarith⟩
    rw [hf, if_pos (by linarith)]
  · have hq2 : q < m := not_le.mp hq
    have hf : ⌊q⌋ = m - 1 :=
      Int.floor_eq_iff.mpr ⟨by push_cast; linarith, by push_cast; linarith⟩
    rw [hf]
    have hc : ((m - 1 : ℤ) : ℚ) = (m : ℚ) - 1 := by push_cast; ring
    rw [hc, if_neg (by linarith), if_pos (by linarith)]
    ring

/-- Evaluation of `roundTo`: with `2 ^ e ≤ |x| < 2 ^ (e + 1)`, unit
`u = 2 ^ (e - (p - 1))` and `m` the integer within a half of `x / u`, the
rounded value is `m * u`. -/
theorem roundTo_eq (p : ℕ) (x : ℚ) (e m : ℤ) (u : ℚ)
    (hu : u = (2 : ℚ) ^ (e - ((p : ℤ) - 1)))
    (h1 : (2 : ℚ) ^ e ≤ |x|) (h2 : |x| < (2 : ℚ) ^ (e + 1))
    (hm1 : (m : ℚ) - 1 / 2 < x / u) (hm2 : x / u < (m : ℚ) + 1 / 2) :
    roundTo p x = m * u := by
  have hx : x ≠ 0 := by
    intro h0
    rw [h0, abs_zero] at h1
    exact absurd h1 (not_le.mpr (zpow_pos (by norm_num) e))
  unfold roundTo
  rw [if_neg hx, log_abs_eq x e h1 h2, ← hu, roundHalfEven_eq _ m hm1 hm2]

/-- Zero is a `float` and a `double`. -/
theorem roundTo_zero (p : ℕ) : roundTo p 0 = 0 := by
  unfold roundTo
  rw [if_pos rfl]

/-- The constant `sensitivity = 0.1f`. -/
theorem toFloat_sensitivity : toFloat (1 / 10) = 13421773 / 134217728 := by
  have h := roundTo_eq 24 (1 / 10) (-4) 13421773 (1 / 134217728) (by norm_num)
    (by norm_num [abs_of_pos]) (by norm_num [abs_of_pos]) (by norm_num) (by norm_num)
  rw [toFloat, h]
  norm_num

/-- The state `mouse_callback_binary32` leaves, in closed form. -/
theorem mouse_callback_binary32_eq (st : State ℚ) (xpos ypos : ℚ) :
    mouse_callback_binary32 st xpos ypos =
      { st with
        lastX := toFloat xpos
        lastY := toFloat ypos
        firstMouse := false
        cameraYaw := toFloat (st.cameraYaw +
          toFloat (toFloat (toDouble (xpos -
            (if st.firstMouse then toFloat xpos else st.lastX))) * toFloat (1 / 10)))
        cameraPitch := max (-89) (min 89 (toFloat (st.cameraPitch +
          toFloat (toFloat (toDouble
            ((if st.firstMouse then toFloat ypos else st.lastY) - ypos)) *
              toFloat (1 / 10))))) } := by
  cases st with
  | mk yaw pitch pos front dt lf lx ly fm fv =>
    cases fm
    · simp only [mouse_callback_binary32, Bool.false_eq_true, if_false]
      rw [← clamp_pitch_eq]
      split_ifs <;> rfl
    · simp only [mouse_callback_binary32, if_true]
      rw [← clamp_pitch_eq]
      split_ifs <;> rfl

/-- In the program's number types the first sample leaves yaw and pitch
unchanged when its coordinates are `float` values (the stored yaw and pitch
being `float` values, the pitch within `[-89, 89]`). -/
theorem mouse_callback_binary32_representable (st : State ℚ) (xpos ypos : ℚ)
    (hflag : st.firstMouse = true) (hx : toFloat xpos = xpos) (hy : toFloat ypos = ypos)
    (hyaw : toFloat st.cameraYaw = st.cameraYaw)
    (hpitch : toFloat st.cameraPitch = st.cameraPitch)
    (hlo : -89 ≤ st.cameraPitch) (hhi : st.cameraPitch ≤ 89) :
    (mouse_callback_binary32 st xpos ypos).cameraYaw = st.cameraYaw ∧
    (mouse_callback_binary32 st xpos ypos).cameraPitch = st.cameraPitch ∧
    (mouse_callback_binary32 st xpos ypos).lastX = xpos ∧
    (mouse_callback_binary32 st xpos ypos).lastY = ypos ∧
    (mouse_callback_binary32 st xpos ypos).firstMouse = false := by
  have hf0 : toFloat 0 = 0 := roundTo_zero 24
  have hd0 : toDouble 0 = 0 := roundTo_zero 53
  have hz : toFloat (toFloat (toDouble 0) * toFloat (1 / 10)) = 0 := by
    rw [hd0, hf0, zero_mul, hf0]
  rw [mouse_callback_binary32_eq]
  simp only [hflag, if_true, hx, hy, sub_self, hz, add_zero, hyaw, hpitch]
  refine ⟨trivial, ?_, trivial, trivial, trivial⟩
  show max (-89) (min 89 st.cameraPitch) = st.cameraPitch
  rw [min_eq_right hhi, max_eq_right hlo]

/-- Claim C3, divergence: in the program's number types the first sample
changes the orientation when its coordinates are not `float` values.  From the
initial state (yaw `-90`, pitch `0`, flag set), the sample `(640.3, 360.3)`
(the nearest `double` values) stores `lastY = 360.29998779296875`, so the
delta `lastY - ypos` is not zero and the pitch moves from `0` to
`-10737419 / 2 ^ 43` (about `-1.2207e-6`); the sample `(1000000033, 0)` stores
`lastX = 1000000064` and moves the yaw from `-90` to `-12202803 / 2 ^ 17`
(about `-93.1`). -/
theorem mouse_callback_binary32_first_sample_residual :
    (initialState : State ℚ).firstMouse = true ∧
    (initialState : State ℚ).cameraYaw = -90 ∧
    (initialState : State ℚ).cameraPitch = 0 ∧
    toDouble (6403 / 10) = 2816069181059891 / 4398046511104 ∧
    toDouble (3603 / 10) = 6338464631803085 / 17592186044416 ∧
    (mouse_callback_binary32 initialState (2816069181059891 / 4398046511104) (6338464631803085 / 17592186044416)).lastY = 5903155 / 16384 ∧
    (mouse_callback_binary32 initialState (2816069181059891 / 4398046511104) (6338464631803085 / 17592186044416)).cameraPitch = -10737419 / 8796093022208 ∧
    (mouse_callback_binary32 initialState (2816069181059891 / 4398046511104) (6338464631803085 / 17592186044416)).cameraPitch ≠
      (initialState : State ℚ).cameraPitch ∧
    toDouble 1000000033 = 1000000033 ∧
    (mouse_callback_binary32 initialState 1000000033 0).lastX = 1000000064 ∧
    (mouse_callback_binary32 initialState 1000000033 0).cameraYaw = -12202803 / 131072 ∧
    (mouse_callback_binary32 initialState 1000000033 0).cameraYaw ≠
      (initialState : State ℚ).cameraYaw := by
  have hdx : toDouble (6403 / 10) = 2816069181059891 / 4398046511104 := by
    have h := roundTo_eq 53 (6403 / 10) 9 5632138362119782 (1 / 8796093022208) (by norm_num)
      (by norm_num [abs_of_pos]) (by norm_num [abs_of_pos]) (by norm_num) (by norm_num)
    rw [toDouble, h]
    norm_num
  have hdy : toDouble (3603 / 10) = 6338464631803085 / 17592186044416 := by
    have h := roundTo_eq 53 (3603 / 10) 8 6338464631803085 (1 / 17592186044416) (by norm_num)
      (by norm_num [abs_of_pos]) (by norm_num [abs_of_pos]) (by norm_num) (by norm_num)
    rw [toDouble, h]
    norm_num
  have h1 : toFloat (6338464631803085 / 17592186044416) = 5903155 / 16384 := by
    have h := roundTo_eq 24 (6338464631803085 / 17592186044416) 8 11806310 (1 / 32768) (by norm_num)
      (by norm_num [abs_of_pos]) (by norm_num [abs_of_pos]) (by norm_num) (by norm_num)
    rw [toFloat, h]
    norm_num
  have h2 : toDouble (5903155 / 16384 - (6338464631803085 / 17592186044416)) = -214748365 / 17592186044416 := by
    have h := roundTo_eq 53 (5903155 / 16384 - (6338464631803085 / 17592186044416)) (-17) (-7205759410503680)
      (1 / 590295810358705651712) (by norm_num)
      (by norm_num [abs_of_neg]) (by norm_num [abs_of_neg]) (by norm_num) (by norm_num)
    rw [toDouble, h]
    norm_num
  have h3 : toFloat (-214748365 / 17592186044416) = -13421773 / 1099511627776 := by
    have h := roundTo_eq 24 (-214748365 / 17592186044416) (-17) (-13421773)
      (1 / 1099511627776) (by norm_num)
      (by norm_num [abs_of_neg]) (by norm_num [abs_of_neg]) (by norm_num) (by norm_num)
    rw [toFloat, h]
    norm_num
  have h5 : toFloat (-13421773 / 1099511627776 * (13421773 / 134217728)) =
      -10737419 / 8796093022208 := by
    have h := roundTo_eq 24 (-13421773 / 1099511627776 * (13421773 / 134217728)) (-20)
      (-10737419) (1 / 8796093022208) (by norm_num)
      (by norm_num [abs_of_neg]) (by norm_num [abs_of_neg]) (by norm_num) (by norm_num)
    rw [toFloat, h]
    norm_num
  have h6 : toFloat (0 + -10737419 / 8796093022208) = -10737419 / 8796093022208 := by
    have h := roundTo_eq 24 (0 + -10737419 / 8796093022208) (-20)
      (-10737419) (1 / 8796093022208) (by norm_num)
      (by norm_num [abs_of_neg]) (by norm_num [abs_of_neg]) (by norm_num) (by norm_num)
    rw [toFloat, h]
    norm_num
  have hpitch : (mouse_callback_binary32 initialState (2816069181059891 / 4398046511104) (6338464631803085 / 17592186044416)).cameraPitch =
      -10737419 / 8796093022208 := by
    rw [mouse_callback_binary32_eq]
    simp only [initialState, if_true]
    rw [h1, h2, h3, toFloat_sensitivity, h5, h6]
    norm_num
  have hdX : toDouble 1000000033 = 1000000033 := by
    have h := roundTo_eq 53 1000000033 29 8388608276824064 (1 / 8388608) (by norm_num)
      (by norm_num [abs_of_pos]) (by norm_num [abs_of_pos]) (by norm_num) (by norm_num)
    rw [toDouble, h]
    norm_num
  have g1 : toFloat 1000000033 = 1000000064 := by
    have h := roundTo_eq 24 1000000033 29 15625001 64 (by norm_num)
      (by norm_num [abs_of_pos]) (by norm_num [abs_of_pos]) (by norm_num) (by norm_num)
    rw [toFloat, h]
    norm_num
  have g2 : toDouble (1000000033 - 1000000064) = -31 := by
    have h := roundTo_eq 53 (1000000033 - 1000000064) 4 (-8725724278030336)
      (1 / 281474976710656) (by norm_num)
      (by norm_num [abs_of_neg]) (by norm_num [abs_of_neg]) (by norm_num) (by norm_num)
    rw [toDouble, h]
    norm_num
  have g3 : toFloat (-31) = -31 := by
    have h := roundTo_eq 24 (-31) 4 (-16252928) (1 / 524288) (by norm_num)
      (by norm_num [abs_of_neg]) (by norm_num [abs_of_neg]) (by norm_num) (by norm_num)
    rw [toFloat, h]
    norm_num
  have g5 : toFloat (-31 * (13421773 / 134217728)) = -13002343 / 4194304 := by
    have h := roundTo_eq 24 (-31 * (13421773 / 134217728)) 1 (-13002343) (1 / 4194304)
      (by norm_num)
      (by norm_num [abs_of_neg]) (by norm_num [abs_of_neg]) (by norm_num) (by norm_num)
    rw [toFloat, h]
    norm_num
  have g6 : toFloat (-90 + -13002343 / 4194304) = -12202803 / 131072 := by
    have h := roundTo_eq 24 (-90 + -13002343 / 4194304) 6 (-12202803) (1 / 131072)
      (by norm_num)
      (by norm_num [abs_of_neg]) (by norm_num [abs_of_neg]) (by norm_num) (by norm_num)
    rw [toFloat, h]
    norm_num
  have hyaw : (mouse_callback_binary32 initialState 1000000033 0).cameraYaw =
      -12202803 / 131072 := by
    rw [mouse_callback_binary32_eq]
    simp only [initialState, if_true]
    rw [g1, g2, g3, toFloat_sensitivity, g5, g6]
  refine ⟨rfl, rfl, rfl, hdx, hdy, ?_, hpitch, ?_, hdX, ?_, hyaw, ?_⟩
  · rw [mouse_callback_binary32_eq]
    exact h1
  · rw [hpitch]
    show (-10737419 / 8796093022208 : ℚ) ≠ 0
    norm_num
  · rw [mouse_callback_binary32_eq]
    exact g1
  · rw [hyaw]
    show (-12202803 / 131072 : ℚ) ≠ -90
    norm_num

/-! ### The forward vector over the reals -/

/-- Degrees to radians with the real `π`. -/
theorem radians_realMath (d : ℝ) : radians realMath d = d * (Real.pi / 180) := rfl

/-- The vector assembled from the angles, with the real `cos` and `sin`. -/
theorem frontOf_realMath (yaw pitch : ℝ) :
    frontOf realMath yaw pitch =
      ⟨Real.cos (yaw * (Real.pi / 180)) * Real.cos (pitch * (Real.pi / 180)),
       Real.sin (pitch * (Real.pi / 180)),
       Real.sin (yaw * (Real.pi / 180)) * Real.cos (pitch * (Real.pi / 180))⟩ := rfl

/-- The vector assembled from the angles has squared norm `1`. -/
theorem frontOf_dot_self (yaw pitch : ℝ) :
    Vec3.dot (frontOf realMath yaw pitch) (frontOf realMath yaw pitch) = 1 := by
  rw [frontOf_realMath]
  simp only [Vec3.dot]
  have h1 := Real.cos_sq_add_sin_sq (yaw * (Real.pi / 180))
  have h2 := Real.cos_sq_add_sin_sq (pitch * (Real.pi / 180))
  linear_combination (Real.cos (pitch * (Real.pi / 180))) ^ 2 * h1 + h2

/-- Normalising a real vector of squared norm `1` divides by `1` and returns
the vector. -/
theorem normalize_eq_self (v : Vec3 ℝ) (h : Vec3.dot v v = 1) : normalize realMath v = v := by
  cases v with
  | mk x y z =>
    simp only [normalize, inversesqrt, h, realMath, Real.sqrt_one, div_one, Vec3.muls, mul_one]

/-- The vector assembled from the angles has length `1`. -/
theorem length_frontOf (yaw pitch : ℝ) : length realMath (frontOf realMath yaw pitch) = 1 := by
  rw [length, frontOf_dot_self]
  exact Real.sqrt_one

/-- The forward vector `mouse_callback` stores is the assembled vector itself. -/
theorem mouse_callback_cameraFront (st : State ℝ) (xpos ypos : ℝ) :
    (mouse_callback realMath st xpos ypos).cameraFront =
      frontOf realMath (mouse_callback realMath st xpos ypos).cameraYaw
        (mouse_callback realMath st xpos ypos).cameraPitch := by
  rw [mouse_callback_eq]
  exact normalize_eq_self _ (frontOf_dot_self _ _)

/-- Claim C4: after every call of `mouse_callback`, from any state and for any
sample, the vector assembled from the stored angles has norm `1` over the
reals, so the divisor of the normalisation is non-zero, the normalisation
returns the vector unchanged, and the stored `cameraFront` has length
exactly `1`. -/
theorem mouse_callback_front_unit_length (st : State ℝ) (xpos ypos : ℝ) :
    length realMath (frontOf realMath (mouse_callback realMath st xpos ypos).cameraYaw
      (mouse_callback realMath st xpos ypos).cameraPitch) = 1 ∧
    realMath.sqrt (Vec3.dot
      (frontOf realMath (mouse_callback realMath st xpos ypos).cameraYaw
        (mouse_callback realMath st xpos ypos).cameraPitch)
      (frontOf realMath (mouse_callback realMath st xpos ypos).cameraYaw
        (mouse_callback realMath st xpos ypos).cameraPitch)) ≠ 0 ∧
    normalize realMath (frontOf realMath (mouse_callback realMath st xpos ypos).cameraYaw
      (mouse_callback realMath st xpos ypos).cameraPitch) =
      frontOf realMath (mouse_callback realMath st xpos ypos).cameraYaw
        (mouse_callback realMath st xpos ypos).cameraPitch ∧
    (mouse_callback realMath st xpos ypos).cameraFront =
      normalize realMath (frontOf realMath (mouse_callback realMath st xpos ypos).cameraYaw
        (mouse_callback realMath st xpos ypos).cameraPitch) ∧
    length realMath (mouse_callback realMath st xpos ypos).cameraFront = 1 := by
  have hn := normalize_eq_self _ (frontOf_dot_self
    (mouse_callback realMath st xpos ypos).cameraYaw
    (mouse_callback realMath st xpos ypos).cameraPitch)
  have hl := length_frontOf (mouse_callback realMath st xpos ypos).cameraYaw
    (mouse_callback realMath st xpos ypos).cameraPitch
  refine ⟨hl, ?_, hn, ?_, ?_⟩
  · rw [frontOf_dot_self]
    show Real.sqrt 1 ≠ 0
    rw [Real.sqrt_one]
    exact one_ne_zero
  · rw [hn]
    exact mouse_callback_cameraFront st xpos ypos
  · rw [mouse_callback_cameraFront]
    exact hl

/-- Claim C7: for yaw `-90` and pitch `0` (the initial angles) the conversion
of `mouse_callback` gives exactly `(0, 0, -1)` over the reals, the initial
value of `cameraFront`; normalising it returns it, so the first sample applied
to the initial state, and a zero-delta sample `(640, 360)` applied to the
initial state with the flag cleared, both leave `cameraFront` at `(0, 0, -1)`. -/
theorem frontOf_initial_angles :
    frontOf realMath (-90) 0 = ⟨0, 0, -1⟩ ∧
    (initialState : State ℝ).cameraYaw = -90 ∧
    (initialState : State ℝ).cameraPitch = 0 ∧
    (initialState : State ℝ).cameraFront = ⟨0, 0, -1⟩ ∧
    normalize realMath (frontOf realMath (-90) 0) = ⟨0, 0, -1⟩ ∧
    (mouse_callback realMath { (initialState : State ℝ) with firstMouse := false }
      640 360).cameraFront = ⟨0, 0, -1⟩ ∧
    (∀ xpos ypos : ℝ,
      (mouse_callback realMath initialState xpos ypos).cameraFront = ⟨0, 0, -1⟩) := by
  have hr : (-90 : ℝ) * (Real.pi / 180) = -(Real.pi / 2) := by ring
  have h0 : frontOf realMath (-90) 0 = ⟨0, 0, -1⟩ := by
    rw [frontOf_realMath, hr, zero_mul, Real.cos_neg, Real.sin_neg, Real.cos_pi_div_two,
      Real.sin_pi_div_two, Real.cos_zero, Real.sin_zero, zero_mul, mul_one]
  have hc : max (-89 : ℝ) (min 89 0) = 0 := by
    rw [min_eq_right (by norm_num), max_eq_right (by norm_num)]
  refine ⟨h0, rfl, rfl, rfl, ?_, ?_, ?_⟩
  · rw [normalize_eq_self _ (frontOf_dot_self _ _), h0]
  · rw [mouse_callback_cameraFront, mouse_callback_eq]
    simp only [initialState, SCR_WIDTH, SCR_HEIGHT, Bool.false_eq_true, if_false]
    norm_num
    exact h0
  · intro xpos ypos
    rw [mouse_callback_cameraFront, mouse_callback_eq]
    simp only [initialState, if_true, sub_self, zero_mul, add_zero, hc]
    exact h0

/-! ### Field of view (`scroll_callback`) -/

/-- The field of view `scroll_callback` stores is the clamp of `fov - yoffset`. -/
theorem scroll_callback_fov (st : State α) (xoffset yoffset : α) :
    (scroll_callback st xoffset yoffset).fov = min 45 (max 1 (st.fov - yoffset)) := by
  simp only [scroll_callback]
  by_cases h1 : st.fov - yoffset < 1
  · have h2 : ¬ ((1 : α) > 45) := by norm_num
    rw [if_pos h1]
    simp only [if_neg h2]
    rw [max_eq_left (le_of_lt h1), min_eq_right (by norm_num)]
  · rw [if_neg h1, max_eq_right (not_lt.mp h1)]
    by_cases h3 : st.fov - yoffset > 45
    · simp only [if_pos h3]
      rw [min_eq_left (le_of_lt h3)]
    · simp only [if_neg h3]
      rw [min_eq_right (not_lt.mp h3)]

/-- The state `scroll_callback` leaves, in closed form. -/
theorem scroll_callback_eq (st : State α) (xoffset yoffset : α) :
    scroll_callback st xoffset yoffset = { st with fov := min 45 (max 1 (st.fov - yoffset)) } := by
  rw [← scroll_callback_fov st xoffset yoffset]
  simp only [scroll_callback]
  split_ifs <;> rfl

/-- One call of `scroll_callback` leaves the field of view in `[1, 45]`. -/
theorem scroll_callback_fov_mem (st : State α) (xoffset yoffset : α) :
    1 ≤ (scroll_callback st xoffset yoffset).fov ∧
      (scroll_callback st xoffset yoffset).fov ≤ 45 := by
  rw [scroll_callback_fov]
  exact ⟨le_min (by norm_num) (le_max_left _ _), min_le_left _ _⟩

/-- A sequence of calls of `scroll_callback` keeps a field of view that is in
`[1, 45]` in `[1, 45]`. -/
theorem scroll_sequence_fov_mem (offsets : List (α × α)) :
    ∀ st : State α, 1 ≤ st.fov ∧ st.fov ≤ 45 →
      1 ≤ (offsets.foldl (fun st d => scroll_callback st d.1 d.2) st).fov ∧
        (offsets.foldl (fun st d => scroll_callback st d.1 d.2) st).fov ≤ 45 := by
  induction offsets with
  | nil => intro st h; exact h
  | cons d ds ih =>
    intro st _
    rw [List.foldl_cons]
    exact ih _ (scroll_callback_fov_mem st d.1 d.2)

/-- Claim C5: a single call of `scroll_callback` from any state leaves the
field of view in `[1, 45]`, and starting from the initial field of view `45`
the field of view is in `[1, 45]` after every sequence of calls with arbitrary
offsets, hence after each call of the sequence (every prefix of it). -/
theorem scroll_callback_fov_in_range :
    (∀ (st : State α) (xoffset yoffset : α),
      1 ≤ (scroll_callback st xoffset yoffset).fov ∧
        (scroll_callback st xoffset yoffset).fov ≤ 45) ∧
    (initialState : State α).fov = 45 ∧
    (∀ (offsets : List (α × α)) (n : Nat),
      1 ≤ ((offsets.take n).foldl (fun st d => scroll_callback st d.1 d.2) initialState).fov ∧
        ((offsets.take n).foldl (fun st d => scroll_callback st d.1 d.2) initialState).fov
          ≤ 45) := by
  refine ⟨scroll_callback_fov_mem, rfl, ?_⟩
  intro offsets n
  apply scroll_sequence_fov_mem
  show (1 : α) ≤ 45 ∧ (45 : α) ≤ 45
  exact ⟨by norm_num, le_refl _⟩

/-- The position `processInput` leaves, in closed form. -/
theorem processInput_cameraPos (M : MathLib α) (st : State α) (keys : Keys) :
    (processInput M st keys).cameraPos =
      ⟨st.cameraPos.x +
        (5 / 2 * st.deltaTime * (pressed keys.w - pressed keys.s) *
            (cameraFrontXZ M st.cameraFront).x +
          5 / 2 * st.deltaTime * (pressed keys.d - pressed keys.a) *
            (rightXZ M st.cameraFront).x),
       3 / 2,
       st.cameraPos.z +
        (5 / 2 * st.deltaTime * (pressed keys.w - pressed keys.s) *
            (cameraFrontXZ M st.cameraFront).z +
          5 / 2 * st.deltaTime * (pressed keys.d - pressed keys.a) *
            (rightXZ M st.cameraFront).z)⟩ := by
  rcases keys with ⟨w, s, a, d⟩
  cases w <;> cases s <;> cases a <;> cases d <;>
    simp only [processInput, pressed, cameraFrontXZ, rightXZ, Vec3.add, Vec3.sub, Vec3.smul,
      Bool.false_eq_true, if_true, if_false] <;>
    (congr 1 <;> ring)

/-- The function `processInput` changes no global but the position. -/
theorem processInput_eq (M : MathLib α) (st : State α) (keys : Keys) :
    processInput M st keys =
      { st with cameraPos := (processInput M st keys).cameraPos } := by
  rcases keys with ⟨w, s, a, d⟩
  cases w <;> cases s <;> cases a <;> cases d <;> rfl

/-- The state `processInput` leaves, in closed form. -/
theorem processInput_closed (M : MathLib α) (st : State α) (keys : Keys) :
    processInput M st keys =
      { st with cameraPos :=
        ⟨st.cameraPos.x +
          (5 / 2 * st.deltaTime * (pressed keys.w - pressed keys.s) *
              (cameraFrontXZ M st.cameraFront).x +
            5 / 2 * st.deltaTime * (pressed keys.d - pressed keys.a) *
              (rightXZ M st.cameraFront).x),
         3 / 2,
         st.cameraPos.z +
          (5 / 2 * st.deltaTime * (pressed keys.w - pressed keys.s) *
              (cameraFrontXZ M st.cameraFront).z +
            5 / 2 * st.deltaTime * (pressed keys.d - pressed keys.a) *
              (rightXZ M st.cameraFront).z)⟩ } := by
  rw [processInput_eq, processInput_cameraPos]

/-- Claim C6: for every prior position, forward vector, `deltaTime` and key
combination, the vertical coordinate of the camera after `processInput` is
exactly `1.5`. -/
theorem processInput_eye_height (M : MathLib α) (st : State α) (keys : Keys) :
    (processInput M st keys).cameraPos.y = 3 / 2 := by
  rw [processInput_cameraPos]

/-- Claim C8: for a forward vector with non-zero horizontal part, with
`fh = normalize (front.x, 0, front.z)`, `rh = normalize (cross fh (0, 1, 0))`
and `s = 2.5 * deltaTime`, `processInput` changes `x` and `z` by the `x` and
`z` components of `s * ([W] - [S]) * fh + s * ([D] - [A]) * rh`; with no key
pressed the position keeps its `x` and `z`, and with `W` and `S` (or `A` and
`D`) both pressed the result is that of pressing neither of the pair.  The
hypothesis delimits the forward vectors for which the C++ normalisation does
not divide by zero; the identities themselves are algebraic. -/
theorem processInput_horizontal_displacement (M : MathLib α) (st : State α)
    (_hfront : st.cameraFront.x ≠ 0 ∨ st.cameraFront.z ≠ 0) :
    (∀ keys : Keys,
      (processInput M st keys).cameraPos.x = st.cameraPos.x +
        (5 / 2 * st.deltaTime * (pressed keys.w - pressed keys.s) *
            (normalize M ⟨st.cameraFront.x, 0, st.cameraFront.z⟩).x +
          5 / 2 * st.deltaTime * (pressed keys.d - pressed keys.a) *
            (normalize M (Vec3.cross (normalize M ⟨st.cameraFront.x, 0, st.cameraFront.z⟩)
              cameraUp)).x) ∧
      (processInput M st keys).cameraPos.z = st.cameraPos.z +
        (5 / 2 * st.deltaTime * (pressed keys.w - pressed keys.s) *
            (normalize M ⟨st.cameraFront.x, 0, st.cameraFront.z⟩).z +
          5 / 2 * st.deltaTime * (pressed keys.d - pressed keys.a) *
            (normalize M (Vec3.cross (normalize M ⟨st.cameraFront.x, 0, st.cameraFront.z⟩)
              cameraUp)).z)) ∧
    ((processInput M st ⟨false, false, false, false⟩).cameraPos.x = st.cameraPos.x ∧
      (processInput M st ⟨false, false, false, false⟩).cameraPos.z = st.cameraPos.z) ∧
    (∀ a d : Bool, (processInput M st ⟨true, true, a, d⟩).cameraPos =
      (processInput M st ⟨false, false, a, d⟩).cameraPos) ∧
    (∀ w s : Bool, (processInput M st ⟨w, s, true, true⟩).cameraPos =
      (processInput M st ⟨w, s, false, false⟩).cameraPos) := by
  refine ⟨?_, ?_, ?_, ?_⟩
  · intro keys
    rw [processInput_cameraPos]
    exact ⟨rfl, rfl⟩
  · rw [processInput_cameraPos]
    simp only [pressed, Bool.false_eq_true, if_false, sub_self, mul_zero, zero_mul, add_zero]
    exact ⟨trivial, trivial⟩
  · intro a d
    rw [processInput_cameraPos, processInput_cameraPos]
    simp only [pressed, Bool.false_eq_true, if_true, if_false, sub_self]
  · intro w s
    rw [processInput_cameraPos, processInput_cameraPos]
    simp only [pressed, Bool.false_eq_true, if_true, if_false, sub_self]

/-- Claim C8, witness: forward vector `(0, 0, -1)` (horizontal part non-zero),
position `(0, 1.5, 3)`, `deltaTime = 1`, key `W` alone: the camera moves by
`2.5` along `-z`, to `(0, 1.5, 0.5)`. -/
theorem processInput_horizontal_displacement_witness :
    (({ (initialState : State ℝ) with deltaTime := 1 }).cameraFront.x ≠ 0 ∨
      ({ (initialState : State ℝ) with deltaTime := 1 }).cameraFront.z ≠ 0) ∧
    (processInput realMath { (initialState : State ℝ) with deltaTime := 1 }
      ⟨true, false, false, false⟩).cameraPos.x = 0 ∧
    (processInput realMath { (initialState : State ℝ) with deltaTime := 1 }
      ⟨true, false, false, false⟩).cameraPos.z = 1 / 2 := by
  have hfront : ({ (initialState : State ℝ) with deltaTime := 1 }).cameraFront.x ≠ 0 ∨
      ({ (initialState : State ℝ) with deltaTime := 1 }).cameraFront.z ≠ 0 := by
    right
    show (-1 : ℝ) ≠ 0
    norm_num
  have h := (processInput_horizontal_displacement realMath
    { (initialState : State ℝ) with deltaTime := 1 } hfront).1 ⟨true, false, false, false⟩
  have hn : normalize realMath (⟨0, 0, -1⟩ : Vec3 ℝ) = ⟨0, 0, -1⟩ :=
    normalize_eq_self _ (by simp [Vec3.dot])
  refine ⟨hfront, ?_, ?_⟩
  · rw [h.1]
    simp only [initialState, pressed, Bool.false_eq_true, if_true, if_false, hn]
    norm_num
  · rw [h.2]
    simp only [initialState, pressed, Bool.false_eq_true, if_true, if_false, hn]
    norm_num

/-! ### Start-up and exit code (`main`) -/

/-- The render loop ends once the window-close condition holds: if it holds
before frame `i + k`, any fuel above `k` is enough from frame `i`. -/
theorem renderLoop_isSome (M : MathLib α) (P : Platform α) :
    ∀ (k i : Nat) (st : State α), P.shouldClose (i + k) = true →
      ∀ fuel : Nat, k < fuel → ∃ st2, renderLoop M P fuel i st = some st2 := by
  intro k
  induction k with
  | zero =>
    intro i st hclose fuel hfuel
    obtain ⟨f, rfl⟩ : ∃ f, fuel = f + 1 := ⟨fuel - 1, by omega⟩
    rw [Nat.add_zero] at hclose
    exact ⟨st, by simp only [renderLoop, hclose, if_true]⟩
  | succ k ih =>
    intro i st hclose fuel hfuel
    obtain ⟨f, rfl⟩ : ∃ f, fuel = f + 1 := ⟨fuel - 1, by omega⟩
    by_cases hi : P.shouldClose i = true
    · exact ⟨st, by simp only [renderLoop, hi, if_true]⟩
    · have hclose2 : P.shouldClose (i + 1 + k) = true := by
        rw [← hclose]
        congr 1
        omega
      simp only [renderLoop, hi, if_false]
      exact ih (i + 1) _ hclose2 f (by omega)

/-- The render loop does not read the shader and texture outcomes. -/
theorem renderLoop_resources (M : MathLib α) (P : Platform α)
    (cs : ShaderType → Bool) (ls : Bool) (td : String → Bool) :
    ∀ (fuel i : Nat) (st : State α),
      renderLoop M { P with compileStatus := cs, linkStatus := ls, textureData := td }
        fuel i st = renderLoop M P fuel i st := by
  intro fuel
  induction fuel with
  | zero => intro i st; rfl
  | succ f ih =>
    intro i st
    simp only [renderLoop]
    rw [ih]

/-- The render loop runs the loop body once per frame until the first loop
test that sees the window-close condition: if the tests before frames
`i, ..., i + k - 1` are false and the test before frame `i + k` is true, any
fuel above `k` returns the globals after exactly those `k` iterations. -/
theorem renderLoop_frames (M : MathLib α) (P : Platform α) :
    ∀ (k i : Nat) (st : State α), (∀ j, j < k → P.shouldClose (i + j) = false) →
      P.shouldClose (i + k) = true →
      ∀ fuel : Nat, k < fuel → renderLoop M P fuel i st = some (frames M P i k st) := by
  intro k
  induction k with
  | zero =>
    intro i st _ hclose fuel hfuel
    obtain ⟨f, rfl⟩ : ∃ f, fuel = f + 1 := ⟨fuel - 1, by omega⟩
    rw [Nat.add_zero] at hclose
    simp only [renderLoop, hclose, if_true, frames]
  | succ k ih =>
    intro i st hopen hclose fuel hfuel
    obtain ⟨f, rfl⟩ : ∃ f, fuel = f + 1 := ⟨fuel - 1, by omega⟩
    have hi : P.shouldClose i = false := by
      have h0 := hopen 0 (by omega)
      rw [Nat.add_zero] at h0
      exact h0
    have hopen2 : ∀ j, j < k → P.shouldClose (i + 1 + j) = false := by
      intro j hj
      have h1 := hopen (j + 1) (by omega)
      rw [← h1]
      congr 1
      omega
    have hclose2 : P.shouldClose (i + 1 + k) = true := by
      rw [← hclose]
      congr 1
      omega
    simp only [renderLoop, hi, Bool.false_eq_true, if_false, frames]
    exact ih (i + 1) _ hopen2 hclose2 f (by omega)

/-- The render loop is still running while every loop test so far is false:
fuel `n` does not suffice when the tests before frames `i, ..., i + n - 1` are
all false. -/
theorem renderLoop_still_running (M : MathLib α) (P : Platform α) :
    ∀ (fuel i : Nat) (st : State α), (∀ j, j < fuel → P.shouldClose (i + j) = false) →
      renderLoop M P fuel i st = none := by
  intro fuel
  induction fuel with
  | zero => intro i st _; rfl
  | succ f ih =>
    intro i st hopen
    have hi : P.shouldClose i = false := by
      have h0 := hopen 0 (by omega)
      rw [Nat.add_zero] at h0
      exact h0
    have hopen2 : ∀ j, j < f → P.shouldClose (i + 1 + j) = false := by
      intro j hj
      have h1 := hopen (j + 1) (by omega)
      rw [← h1]
      congr 1
      omega
    simp only [renderLoop, hi, Bool.false_eq_true, if_false]
    exact ih (i + 1) _ hopen2

/-- The function `main` once window and loader have succeeded: the start-up
output, then the render loop. -/
theorem main_of_started (M : MathLib α) (P : Platform α) (fuel : Nat)
    (hw : P.windowCreated = true) (hg : P.gladLoaded = true) :
    main M P fuel =
      (renderLoop M P fuel 0 initialState).bind fun _ => some ⟨0, startupOutput P⟩ := by
  simp only [main, hw, hg, Bool.not_true, Bool.false_eq_true, if_false, startupOutput]
  cases renderLoop M P fuel 0 initialState with
  | none => rfl
  | some st2 => rfl

/-- Claim C9: with the outcomes of window creation, loader initialisation,
shader compilation and linking, and texture loading as inputs, `main` returns
`-1` exactly when window creation or loader initialisation fails (printing the
one message, without reaching the loop).  Otherwise, whatever the shader and
texture outcomes, start-up continues to the render loop: `main` is still
running while every loop test is false, the loop runs the body once per frame
up to the first loop test `n` that sees the window-close condition, and then
`main` returns `0` having printed the start-up diagnostics; so `main` returns
`0` exactly when window and loader succeeded and some loop test within the
fuel sees the condition.  The exit code does not depend on the shader and
texture outcomes. -/
theorem main_exit_code (M : MathLib α) (P : Platform α) :
    (∀ fuel : Nat, (∃ out, main M P fuel = some ⟨-1, out⟩) ↔
      (P.windowCreated = false ∨ P.gladLoaded = false)) ∧
    (P.windowCreated = true → P.gladLoaded = true →
      ∀ n : Nat, P.shouldClose n = true →
        ∀ fuel : Nat, n < fuel → ∃ out, main M P fuel = some ⟨0, out⟩) ∧
    (∀ (fuel : Nat) (e : Exit), main M P fuel = some e → e.code = -1 ∨ e.code = 0) ∧
    (∀ (fuel : Nat) (cs : ShaderType → Bool) (ls : Bool) (td : String → Bool),
      (main M { P with compileStatus := cs, linkStatus := ls, textureData := td } fuel).map
        Exit.code = (main M P fuel).map Exit.code) ∧
    (∀ fuel : Nat, P.windowCreated = false →
      main M P fuel = some ⟨-1, ["Failed to create GLFW window"]⟩) ∧
    (∀ fuel : Nat, P.windowCreated = true → P.gladLoaded = false →
      main M P fuel = some ⟨-1, ["Failed to initialize GLAD"]⟩) ∧
    (∀ fuel : Nat, (∀ j, j < fuel → P.shouldClose j = false) →
      renderLoop M P fuel 0 initialState = none ∧
      (P.windowCreated = true → P.gladLoaded = true → main M P fuel = none)) ∧
    (∀ n : Nat, (∀ j, j < n → P.shouldClose j = false) → P.shouldClose n = true →
      ∀ fuel : Nat, n < fuel →
        renderLoop M P fuel 0 initialState = some (frames M P 0 n initialState) ∧
        (P.windowCreated = true → P.gladLoaded = true →
          main M P fuel = some ⟨0, startupOutput P⟩)) ∧
    (∀ fuel : Nat, (∃ out, main M P fuel = some ⟨0, out⟩) ↔
      (P.windowCreated = true ∧ P.gladLoaded = true ∧
        ∃ n, n < fuel ∧ P.shouldClose n = true)) := by
  have hfail1 : ∀ fuel : Nat, P.windowCreated = false →
      main M P fuel = some ⟨-1, ["Failed to create GLFW window"]⟩ := by
    intro fuel hw
    simp only [main, hw, Bool.not_false, if_true]
  have hfail2 : ∀ fuel : Nat, P.windowCreated = true → P.gladLoaded = false →
      main M P fuel = some ⟨-1, ["Failed to initialize GLAD"]⟩ := by
    intro fuel hw hg
    simp only [main, hw, hg, Bool.not_true, Bool.not_false, Bool.false_eq_true, if_true,
      if_false]
  have hstarted : ∀ fuel : Nat, P.windowCreated = true → P.gladLoaded = true →
      ∀ e : Exit, main M P fuel = some e → e = ⟨0, startupOutput P⟩ ∧
        ∃ st2, renderLoop M P fuel 0 initialState = some st2 := by
    intro fuel hw hg e h
    rw [main_of_started M P fuel hw hg] at h
    cases hr : renderLoop M P fuel 0 initialState with
    | none => rw [hr] at h; exact absurd h (by simp)
    | some st2 =>
      rw [hr] at h
      exact ⟨(Option.some.inj h).symm, st2, rfl⟩
  have hcases : ∀ b : Bool, b = false ∨ b = true := by
    intro b
    cases b
    · exact Or.inl rfl
    · exact Or.inr rfl
  have hclosed : ∀ fuel : Nat, (∃ st2, renderLoop M P fuel 0 initialState = some st2) →
      ∃ n, n < fuel ∧ P.shouldClose n = true := by
    intro fuel hsome
    by_contra hno
    have hopen : ∀ j, j < fuel → P.shouldClose (0 + j) = false := by
      intro j hj
      rw [Nat.zero_add]
      rcases hcases (P.shouldClose j) with h | h
      · exact h
      · exact absurd ⟨j, hj, h⟩ hno
    obtain ⟨st2, hst⟩ := hsome
    rw [renderLoop_still_running M P fuel 0 initialState hopen] at hst
    exact absurd hst (by simp)
  have hfirst : ∀ n : Nat, (∀ j, j < n → P.shouldClose j = false) → P.shouldClose n = true →
      ∀ fuel : Nat, n < fuel →
        renderLoop M P fuel 0 initialState = some (frames M P 0 n initialState) := by
    intro n hopen hclose fuel hfuel
    apply renderLoop_frames M P n 0 initialState _ _ fuel hfuel
    · intro j hj
      rw [Nat.zero_add]
      exact hopen j hj
    · rw [Nat.zero_add]
      exact hclose
  have hzero : P.windowCreated = true → P.gladLoaded = true →
      ∀ n : Nat, P.shouldClose n = true →
        ∀ fuel : Nat, n < fuel → main M P fuel = some ⟨0, startupOutput P⟩ := by
    intro hw hg n hclose fuel hfuel
    obtain ⟨st2, hst⟩ := renderLoop_isSome M P n 0 initialState
      (by rw [Nat.zero_add]; exact hclose) fuel hfuel
    rw [main_of_started M P fuel hw hg, hst]
    rfl
  refine ⟨?_, ?_, ?_, ?_, hfail1, hfail2, ?_, ?_, ?_⟩
  · intro fuel
    constructor
    · rintro ⟨out, h⟩
      rcases hcases P.windowCreated with hw | hw
      · exact Or.inl hw
      · rcases hcases P.gladLoaded with hg | hg
        · exact Or.inr hg
        · have he := (hstarted fuel hw hg _ h).1
          have hcode : (-1 : Int) = 0 := congrArg Exit.code he
          exact absurd hcode (by decide)
    · rintro (hw | hg)
      · exact ⟨_, hfail1 fuel hw⟩
      · rcases hcases P.windowCreated with hw | hw
        · exact ⟨_, hfail1 fuel hw⟩
        · exact ⟨_, hfail2 fuel hw hg⟩
  · intro hw hg n hclose fuel hfuel
    exact ⟨_, hzero hw hg n hclose fuel hfuel⟩
  · intro fuel e h
    rcases hcases P.windowCreated with hw | hw
    · rw [hfail1 fuel hw] at h
      left
      rw [← Option.some.inj h]
    · rcases hcases P.gladLoaded with hg | hg
      · rw [hfail2 fuel hw hg] at h
        left
        rw [← Option.some.inj h]
      · right
        rw [(hstarted fuel hw hg e h).1]
  · intro fuel cs ls td
    simp only [main, renderLoop_resources]
    cases P.windowCreated
    · rfl
    · cases P.gladLoaded
      · rfl
      · simp only [Bool.not_true, Bool.false_eq_true, if_false]
        cases renderLoop M P fuel 0 initialState with
        | none => rfl
        | some st2 => rfl
  · intro fuel hopen
    have hnone : renderLoop M P fuel 0 initialState = none := by
      apply renderLoop_still_running
      intro j hj
      rw [Nat.zero_add]
      exact hopen j hj
    refine ⟨hnone, ?_⟩
    intro hw hg
    rw [main_of_started M P fuel hw hg, hnone]
    rfl
  · intro n hopen hclose fuel hfuel
    refine ⟨hfirst n hopen hclose fuel hfuel, ?_⟩
    intro hw hg
    exact hzero hw hg n hclose fuel hfuel
  · intro fuel
    constructor
    · rintro ⟨out, h⟩
      rcases hcases P.windowCreated with hw | hw
      · rw [hfail1 fuel hw] at h
        have hcode : (-1 : Int) = 0 := congrArg Exit.code (Option.some.inj h)
        exact absurd hcode (by decide)
      · rcases hcases P.gladLoaded with hg | hg
        · rw [hfail2 fuel hw hg] at h
          have hcode : (-1 : Int) = 0 := congrArg Exit.code (Option.some.inj h)
          exact absurd hcode (by decide)
        · exact ⟨hw, hg, hclosed fuel (hstarted fuel hw hg _ h).2⟩
    · rintro ⟨hw, hg, n, hn, hclose⟩
      exact ⟨_, hzero hw hg n hclose fuel hn⟩

/-- Claim C9, witness: window, loader, shaders and textures succeed, `W` is
held, the clock reads `i` in frame `i`, a scroll of `5` arrives in the first
frame, and the window-close condition first holds at the third loop test.
With fuel `2` the program is still in the loop; with fuel `3` the loop has run
two frames (the camera has moved from `z = 3` to `z = 0.5`, the field of view
is `40`), and `main` returns `0` having printed nothing. -/
theorem main_exit_code_witness :
    main realMath
      ⟨true, true, fun _ => true, true, fun _ => true, fun i => decide (2 ≤ i),
        fun i => (i : ℝ), fun _ => ⟨true, false, false, false⟩,
        fun i => if i = 0 then [Event.scroll 0 5] else []⟩ 2 = none ∧
    main realMath
      ⟨true, true, fun _ => true, true, fun _ => true, fun i => decide (2 ≤ i),
        fun i => (i : ℝ), fun _ => ⟨true, false, false, false⟩,
        fun i => if i = 0 then [Event.scroll 0 5] else []⟩ 3 = some ⟨0, []⟩ ∧
    (renderLoop realMath
      ⟨true, true, fun _ => true, true, fun _ => true, fun i => decide (2 ≤ i),
        fun i => (i : ℝ), fun _ => ⟨true, false, false, false⟩,
        fun i => if i = 0 then [Event.scroll 0 5] else []⟩ 3 0 initialState).map
      (fun st => (st.cameraPos, st.fov, st.lastFrame)) = some (⟨0, 3 / 2, 1 / 2⟩, 40, 1) := by
  have h := main_exit_code realMath
    ⟨true, true, fun _ => true, true, fun _ => true, fun i => decide (2 ≤ i),
      fun i => (i : ℝ), fun _ => ⟨true, false, false, false⟩,
      fun i => if i = 0 then [Event.scroll 0 5] else []⟩
  have hopen : ∀ j, j < 2 → decide (2 ≤ j) = false := by
    intro j hj
    exact decide_eq_false (by omega)
  have hrun := h.2.2.2.2.2.2.1 2 hopen
  have hend := h.2.2.2.2.2.2.2.1 2 hopen rfl 3 (by decide)
  have hn : normalize realMath (⟨0, 0, -1⟩ : Vec3 ℝ) = ⟨0, 0, -1⟩ :=
    normalize_eq_self _ (by simp [Vec3.dot])
  refine ⟨hrun.2 rfl rfl, ?_, ?_⟩
  · rw [hend.2 rfl rfl]
    rfl
  · rw [hend.1]
    clear h hrun hend hopen
    simp only [frames, frame, processInput_closed, scroll_callback_eq, dispatch, initialState,
      Option.map_some', Option.some.injEq, Prod.mk.injEq, if_true, List.foldl_cons,
      List.foldl_nil, pressed, cameraFrontXZ, hn, Bool.false_eq_true, if_false]
    norm_num

/-! ### Yaw periodicity -/

/-- Whole turns in degrees are multiples of `2π` in radians. -/
theorem radians_add_turns (yaw : ℝ) (k : ℤ) :
    (yaw + 360 * (k : ℝ)) * (Real.pi / 180) = yaw * (Real.pi / 180) + (k : ℝ) * (2 * Real.pi) := by
  ring

/-- The assembled vector is unchanged by whole turns of yaw. -/
theorem frontOf_add_turns (yaw pitch : ℝ) (k : ℤ) :
    frontOf realMath (yaw + 360 * (k : ℝ)) pitch = frontOf realMath yaw pitch := by
  rw [frontOf_realMath, frontOf_realMath, radians_add_turns, Real.cos_add_int_mul_two_pi,
    Real.sin_add_int_mul_two_pi]

/-- Claim C11: for every pitch, every yaw and every integer `k`, the
conversion of `mouse_callback` gives the same vector from
`(yaw + 360 * k, pitch)` as from `(yaw, pitch)` over the reals; hence two
states that differ only by `360 * k` in the stored yaw have the same
`cameraFront` after the same pointer sample (their stored yaws still differ
by `360 * k`: the yaw itself is not wrapped). -/
theorem frontOf_yaw_periodic :
    (∀ (yaw pitch : ℝ) (k : ℤ),
      frontOf realMath (yaw + 360 * (k : ℝ)) pitch = frontOf realMath yaw pitch) ∧
    (∀ (st : State ℝ) (k : ℤ) (xpos ypos : ℝ),
      (mouse_callback realMath { st with cameraYaw := st.cameraYaw + 360 * (k : ℝ) }
        xpos ypos).cameraFront = (mouse_callback realMath st xpos ypos).cameraFront ∧
      (mouse_callback realMath { st with cameraYaw := st.cameraYaw + 360 * (k : ℝ) }
        xpos ypos).cameraYaw = (mouse_callback realMath st xpos ypos).cameraYaw + 360 * (k : ℝ)) := by
  refine ⟨frontOf_add_turns, ?_⟩
  intro st k xpos ypos
  have hy : (mouse_callback realMath { st with cameraYaw := st.cameraYaw + 360 * (k : ℝ) }
      xpos ypos).cameraYaw = (mouse_callback realMath st xpos ypos).cameraYaw + 360 * (k : ℝ) := by
    rw [mouse_callback_eq, mouse_callback_eq]
    show st.cameraYaw + 360 * (k : ℝ) + _ = st.cameraYaw + _ + 360 * (k : ℝ)
    ring
  have hp : (mouse_callback realMath { st with cameraYaw := st.cameraYaw + 360 * (k : ℝ) }
      xpos ypos).cameraPitch = (mouse_callback realMath st xpos ypos).cameraPitch := by
    rw [mouse_callback_eq, mouse_callback_eq]
  refine ⟨?_, hy⟩
  rw [mouse_callback_cameraFront, mouse_callback_cameraFront, hy, hp, frontOf_add_turns]

/-! ### The movement directions of `processInput` over the reals -/

/-- The cosine of a pitch within `[-89, 89]` degrees is positive. -/
theorem cos_radians_pos (p : ℝ) (hlo : -89 ≤ p) (hhi : p ≤ 89) :
    0 < Real.cos (radians realMath p) := by
  rw [radians_realMath]
  apply Real.cos_pos_of_mem_Ioo
  constructor <;> nlinarith [Real.pi_pos]

/-- The pitch stored by `mouse_callback` is within `[-89, 89]`. -/
theorem mouse_callback_pitch_mem (M : MathLib α) (st : State α) (xpos ypos : α) :
    -89 ≤ (mouse_callback M st xpos ypos).cameraPitch ∧
      (mouse_callback M st xpos ypos).cameraPitch ≤ 89 := by
  rw [mouse_callback_eq]
  exact ⟨le_max_left _ _, max_le (by norm_num) (min_le_left _ _)⟩

/-- The horizontal part of the assembled vector has squared norm `cos² pitch`. -/
theorem frontOf_horizontal (yaw pitch : ℝ) :
    (frontOf realMath yaw pitch).x ^ 2 + (frontOf realMath yaw pitch).z ^ 2 =
      Real.cos (radians realMath pitch) ^ 2 := by
  rw [frontOf_realMath, radians_realMath]
  have h1 := Real.cos_sq_add_sin_sq (yaw * (Real.pi / 180))
  linear_combination (Real.cos (pitch * (Real.pi / 180))) ^ 2 * h1

/-- Squared norm of a horizontal vector. -/
theorem dot_horizontal (x z : ℝ) : Vec3.dot (⟨x, 0, z⟩ : Vec3 ℝ) ⟨x, 0, z⟩ = x ^ 2 + z ^ 2 := by
  simp only [Vec3.dot]
  ring

/-- A vector with non-zero horizontal part has positive horizontal squared norm. -/
theorem horizontal_sq_pos (f : Vec3 ℝ) (h : f.x ≠ 0 ∨ f.z ≠ 0) : 0 < f.x ^ 2 + f.z ^ 2 := by
  rcases h with h | h
  · have := pow_pos (abs_pos.mpr h) 2
    rw [sq_abs] at this
    nlinarith [sq_nonneg f.z]
  · have := pow_pos (abs_pos.mpr h) 2
    rw [sq_abs] at this
    nlinarith [sq_nonneg f.x]

/-- The divisor of the first normalisation of `processInput` is positive when
the horizontal part of the forward vector is non-zero. -/
theorem length_horizontal_pos (f : Vec3 ℝ) (h : 0 < f.x ^ 2 + f.z ^ 2) :
    0 < length realMath ⟨f.x, 0, f.z⟩ := by
  rw [length, dot_horizontal]
  exact Real.sqrt_pos.mpr h

/-- The components of `cameraFrontXZ`: the horizontal part divided by its length. -/
theorem cameraFrontXZ_eq (f : Vec3 ℝ) :
    cameraFrontXZ realMath f =
      ⟨f.x * (1 / Real.sqrt (f.x ^ 2 + f.z ^ 2)), 0,
       f.z * (1 / Real.sqrt (f.x ^ 2 + f.z ^ 2))⟩ := by
  rw [cameraFrontXZ, normalize, inversesqrt, dot_horizontal]
  simp only [Vec3.muls, zero_mul]
  rfl

/-- The direction `cameraFrontXZ` is a horizontal unit vector. -/
theorem cameraFrontXZ_unit (f : Vec3 ℝ) (h : 0 < f.x ^ 2 + f.z ^ 2) :
    (cameraFrontXZ realMath f).x ^ 2 + (cameraFrontXZ realMath f).z ^ 2 = 1 ∧
      (cameraFrontXZ realMath f).y = 0 := by
  rw [cameraFrontXZ_eq]
  refine ⟨?_, rfl⟩
  have hs : Real.sqrt (f.x ^ 2 + f.z ^ 2) ^ 2 = f.x ^ 2 + f.z ^ 2 :=
    Real.sq_sqrt (le_of_lt h)
  have hne : Real.sqrt (f.x ^ 2 + f.z ^ 2) ≠ 0 := ne_of_gt (Real.sqrt_pos.mpr h)
  show (f.x * (1 / Real.sqrt (f.x ^ 2 + f.z ^ 2))) ^ 2 +
    (f.z * (1 / Real.sqrt (f.x ^ 2 + f.z ^ 2))) ^ 2 = 1
  have hexp : (f.x * (1 / Real.sqrt (f.x ^ 2 + f.z ^ 2))) ^ 2 +
      (f.z * (1 / Real.sqrt (f.x ^ 2 + f.z ^ 2))) ^ 2 =
      (f.x ^ 2 + f.z ^ 2) / Real.sqrt (f.x ^ 2 + f.z ^ 2) ^ 2 := by
    field_simp
  rw [hexp, hs]
  exact div_self (ne_of_gt h)

/-- The cross product of a horizontal vector with `cameraUp`. -/
theorem cross_cameraUp (v : Vec3 ℝ) (hy : v.y = 0) :
    Vec3.cross v cameraUp = ⟨-v.z, 0, v.x⟩ := by
  simp only [Vec3.cross, cameraUp, hy]
  congr 1 <;> ring

/-- The vector `processInput` normalises second has squared norm `1`. -/
theorem cross_cameraFrontXZ_dot (f : Vec3 ℝ) (h : 0 < f.x ^ 2 + f.z ^ 2) :
    Vec3.dot (Vec3.cross (cameraFrontXZ realMath f) cameraUp)
      (Vec3.cross (cameraFrontXZ realMath f) cameraUp) = 1 := by
  rw [cross_cameraUp _ (cameraFrontXZ_unit f h).2]
  simp only [Vec3.dot]
  linear_combination (cameraFrontXZ_unit f h).1

/-- The direction `rightXZ` is `cameraFrontXZ` turned by a quarter turn. -/
theorem rightXZ_eq (f : Vec3 ℝ) (h : 0 < f.x ^ 2 + f.z ^ 2) :
    rightXZ realMath f = ⟨-(cameraFrontXZ realMath f).z, 0, (cameraFrontXZ realMath f).x⟩ := by
  rw [rightXZ, normalize_eq_self _ (cross_cameraFrontXZ_dot f h),
    cross_cameraUp _ (cameraFrontXZ_unit f h).2]

/-- The facts of claim C12 for a vector whose horizontal squared norm is
`cos² p` with `p` within `[-89, 89]`. -/
theorem normalisations_defined_of_horizontal (f : Vec3 ℝ) (p : ℝ)
    (hlo : -89 ≤ p) (hhi : p ≤ 89)
    (hsq : f.x ^ 2 + f.z ^ 2 = Real.cos (radians realMath p) ^ 2) :
    0 < Real.cos (radians realMath p) ^ 2 ∧
    (⟨f.x, 0, f.z⟩ : Vec3 ℝ) ≠ ⟨0, 0, 0⟩ ∧
    length realMath ⟨f.x, 0, f.z⟩ ≠ 0 ∧
    Vec3.cross (cameraFrontXZ realMath f) cameraUp ≠ ⟨0, 0, 0⟩ ∧
    length realMath (Vec3.cross (cameraFrontXZ realMath f) cameraUp) ≠ 0 := by
  have hc : 0 < Real.cos (radians realMath p) ^ 2 := pow_pos (cos_radians_pos p hlo hhi) 2
  have hpos : 0 < f.x ^ 2 + f.z ^ 2 := by rw [hsq]; exact hc
  have hcross := cross_cameraFrontXZ_dot f hpos
  refine ⟨hc, ?_, ne_of_gt (length_horizontal_pos f hpos), ?_, ?_⟩
  · intro h
    have hx : f.x = 0 := congrArg Vec3.x h
    have hz : f.z = 0 := congrArg Vec3.z h
    rw [hx, hz] at hpos
    norm_num at hpos
  · intro h
    rw [h] at hcross
    simp only [Vec3.dot, mul_zero, add_zero] at hcross
    exact zero_ne_one hcross
  · rw [length, hcross]
    show Real.sqrt 1 ≠ 0
    rw [Real.sqrt_one]
    exact one_ne_zero

/-- Claim C12: whenever the forward vector `f` was produced by
`mouse_callback` (with `p` the stored pitch) or is the initial `(0, 0, -1)`
(with the initial pitch `0`), the pitch lies in `[-89, 89]` and
`f.x² + f.z² = cos² p > 0` over the reals; hence both vectors `processInput`
normalises, `(f.x, 0, f.z)` and the cross product of its normalisation with
`cameraUp = (0, 1, 0)`, are non-zero, and both divisors (the lengths the
normalisations divide by) are non-zero. -/
theorem processInput_normalisations_defined (f : Vec3 ℝ) (p : ℝ)
    (hfrom : (∃ (st : State ℝ) (xpos ypos : ℝ),
        f = (mouse_callback realMath st xpos ypos).cameraFront ∧
        p = (mouse_callback realMath st xpos ypos).cameraPitch) ∨
      (f = (initialState : State ℝ).cameraFront ∧
        p = (initialState : State ℝ).cameraPitch)) :
    (-89 ≤ p ∧ p ≤ 89) ∧
    f.x ^ 2 + f.z ^ 2 = Real.cos (radians realMath p) ^ 2 ∧
    0 < Real.cos (radians realMath p) ^ 2 ∧
    (⟨f.x, 0, f.z⟩ : Vec3 ℝ) ≠ ⟨0, 0, 0⟩ ∧
    length realMath ⟨f.x, 0, f.z⟩ ≠ 0 ∧
    cameraFrontXZ realMath f =
      Vec3.muls ⟨f.x, 0, f.z⟩ (1 / length realMath ⟨f.x, 0, f.z⟩) ∧
    Vec3.cross (cameraFrontXZ realMath f) cameraUp ≠ ⟨0, 0, 0⟩ ∧
    length realMath (Vec3.cross (cameraFrontXZ realMath f) cameraUp) ≠ 0 ∧
    rightXZ realMath f =
      Vec3.muls (Vec3.cross (cameraFrontXZ realMath f) cameraUp)
        (1 / length realMath (Vec3.cross (cameraFrontXZ realMath f) cameraUp)) := by
  have key : (-89 ≤ p ∧ p ≤ 89) ∧ f.x ^ 2 + f.z ^ 2 = Real.cos (radians realMath p) ^ 2 := by
    rcases hfrom with ⟨st, xpos, ypos, hf, hp⟩ | ⟨hf, hp⟩
    · rw [hf, hp, mouse_callback_cameraFront]
      exact ⟨mouse_callback_pitch_mem realMath st xpos ypos, frontOf_horizontal _ _⟩
    · rw [hf, hp]
      refine ⟨⟨?_, ?_⟩, ?_⟩
      · show (-89 : ℝ) ≤ 0
        norm_num
      · show (0 : ℝ) ≤ 89
        norm_num
      · show (0 : ℝ) ^ 2 + (-1 : ℝ) ^ 2 = Real.cos ((0 : ℝ) * (Real.pi / 180)) ^ 2
        rw [zero_mul, Real.cos_zero]
        norm_num
  obtain ⟨h1, h2, h3, h4, h5⟩ :=
    normalisations_defined_of_horizontal f p key.1.1 key.1.2 key.2
  exact ⟨key.1, key.2, h1, h2, h3, rfl, h4, h5, rfl⟩

/-- Claim C12, witness: the initial forward vector `(0, 0, -1)` with the
initial pitch `0`. -/
theorem processInput_normalisations_defined_witness :
    ((∃ (st : State ℝ) (xpos ypos : ℝ),
        (⟨0, 0, -1⟩ : Vec3 ℝ) = (mouse_callback realMath st xpos ypos).cameraFront ∧
        (0 : ℝ) = (mouse_callback realMath st xpos ypos).cameraPitch) ∨
      ((⟨0, 0, -1⟩ : Vec3 ℝ) = (initialState : State ℝ).cameraFront ∧
        (0 : ℝ) = (initialState : State ℝ).cameraPitch)) ∧
    length realMath (⟨0, 0, -1⟩ : Vec3 ℝ) ≠ 0 ∧
    length realMath (Vec3.cross (cameraFrontXZ realMath ⟨0, 0, -1⟩) cameraUp) ≠ 0 :=
  ⟨Or.inr ⟨rfl, rfl⟩,
    (processInput_normalisations_defined ⟨0, 0, -1⟩ 0 (Or.inr ⟨rfl, rfl⟩)).2.2.2.2.1,
    (processInput_normalisations_defined ⟨0, 0, -1⟩ 0 (Or.inr ⟨rfl, rfl⟩)).2.2.2.2.2.2.2.1⟩

/-- Length of the horizontal displacement of one `processInput` call, for a
forward vector with positive horizontal squared norm. -/
theorem displacement_length (st : State ℝ)
    (h : 0 < st.cameraFront.x ^ 2 + st.cameraFront.z ^ 2) (keys : Keys) :
    length realMath
      ⟨(processInput realMath st keys).cameraPos.x - st.cameraPos.x, 0,
       (processInput realMath st keys).cameraPos.z - st.cameraPos.z⟩ =
      5 / 2 * |st.deltaTime| *
        Real.sqrt ((pressed keys.w - pressed keys.s) ^ 2 +
          (pressed keys.d - pressed keys.a) ^ 2) := by
  have hu := (cameraFrontXZ_unit st.cameraFront h).1
  rw [length, dot_horizontal, processInput_cameraPos, rightXZ_eq _ h]
  have hsq : (st.cameraPos.x +
        (5 / 2 * st.deltaTime * (pressed keys.w - pressed keys.s) *
            (cameraFrontXZ realMath st.cameraFront).x +
          5 / 2 * st.deltaTime * (pressed keys.d - pressed keys.a) *
            -(cameraFrontXZ realMath st.cameraFront).z) - st.cameraPos.x) ^ 2 +
      (st.cameraPos.z +
        (5 / 2 * st.deltaTime * (pressed keys.w - pressed keys.s) *
            (cameraFrontXZ realMath st.cameraFront).z +
          5 / 2 * st.deltaTime * (pressed keys.d - pressed keys.a) *
            (cameraFrontXZ realMath st.cameraFront).x) - st.cameraPos.z) ^ 2 =
      (5 / 2 * st.deltaTime) ^ 2 *
        ((pressed keys.w - pressed keys.s) ^ 2 + (pressed keys.d - pressed keys.a) ^ 2) := by
    linear_combination ((5 / 2 * st.deltaTime) ^ 2 *
      ((pressed keys.w - pressed keys.s) ^ 2 + (pressed keys.d - pressed keys.a) ^ 2)) * hu
  show Real.sqrt _ = _
  rw [hsq, Real.sqrt_mul (sq_nonneg _), Real.sqrt_sq_eq_abs, abs_mul,
    abs_of_pos (by norm_num : (0 : ℝ) < 5 / 2)]

/-- Claim C14: for a forward vector with non-zero horizontal part the two
movement directions of `processInput` are horizontal and orthonormal over the
reals (`rh = (-fh.z, 0, fh.x)`, `fh . rh = 0`, `|fh| = |rh| = 1`), so for every
key combination the horizontal displacement of one call has length
`2.5 * |deltaTime| * sqrt (([W] - [S])² + ([D] - [A])²)`: `2.5 * |deltaTime|`
when exactly one key is pressed, whatever the forward vector, and `sqrt 2`
times that when one of `W`/`S` and one of `A`/`D` are pressed. -/
theorem processInput_directions_orthonormal (st : State ℝ)
    (hfront : st.cameraFront.x ≠ 0 ∨ st.cameraFront.z ≠ 0) :
    rightXZ realMath st.cameraFront =
      ⟨-(cameraFrontXZ realMath st.cameraFront).z, 0,
        (cameraFrontXZ realMath st.cameraFront).x⟩ ∧
    (cameraFrontXZ realMath st.cameraFront).y = 0 ∧
    (rightXZ realMath st.cameraFront).y = 0 ∧
    Vec3.dot (cameraFrontXZ realMath st.cameraFront) (rightXZ realMath st.cameraFront) = 0 ∧
    length realMath (cameraFrontXZ realMath st.cameraFront) = 1 ∧
    length realMath (rightXZ realMath st.cameraFront) = 1 ∧
    (∀ keys : Keys,
      length realMath
        ⟨(processInput realMath st keys).cameraPos.x - st.cameraPos.x, 0,
         (processInput realMath st keys).cameraPos.z - st.cameraPos.z⟩ =
        5 / 2 * |st.deltaTime| *
          Real.sqrt ((pressed keys.w - pressed keys.s) ^ 2 +
            (pressed keys.d - pressed keys.a) ^ 2)) ∧
    (∀ keys : Keys, [keys.w, keys.s, keys.a, keys.d].count true = 1 →
      length realMath
        ⟨(processInput realMath st keys).cameraPos.x - st.cameraPos.x, 0,
         (processInput realMath st keys).cameraPos.z - st.cameraPos.z⟩ =
        5 / 2 * |st.deltaTime|) ∧
    (∀ keys : Keys, keys.w ≠ keys.s → keys.a ≠ keys.d →
      length realMath
        ⟨(processInput realMath st keys).cameraPos.x - st.cameraPos.x, 0,
         (processInput realMath st keys).cameraPos.z - st.cameraPos.z⟩ =
        Real.sqrt 2 * (5 / 2 * |st.deltaTime|)) := by
  have h := horizontal_sq_pos st.cameraFront hfront
  have hu := cameraFrontXZ_unit st.cameraFront h
  have hr := rightXZ_eq st.cameraFront h
  have h11 : ((1 : ℝ) - 0) ^ 2 + (0 - 0) ^ 2 = 1 := by norm_num
  have h12 : ((0 : ℝ) - 1) ^ 2 + (0 - 0) ^ 2 = 1 := by norm_num
  have h13 : ((0 : ℝ) - 0) ^ 2 + (1 - 0) ^ 2 = 1 := by norm_num
  have h14 : ((0 : ℝ) - 0) ^ 2 + (0 - 1) ^ 2 = 1 := by norm_num
  have h21 : ((1 : ℝ) - 0) ^ 2 + (1 - 0) ^ 2 = 2 := by norm_num
  have h22 : ((1 : ℝ) - 0) ^ 2 + (0 - 1) ^ 2 = 2 := by norm_num
  have h23 : ((0 : ℝ) - 1) ^ 2 + (1 - 0) ^ 2 = 2 := by norm_num
  have h24 : ((0 : ℝ) - 1) ^ 2 + (0 - 1) ^ 2 = 2 := by norm_num
  refine ⟨hr, hu.2, ?_, ?_, ?_, ?_, displacement_length st h, ?_, ?_⟩
  · rw [hr]
  · rw [hr]
    simp only [Vec3.dot, hu.2]
    ring
  · rw [length]
    have hd : Vec3.dot (cameraFrontXZ realMath st.cameraFront)
        (cameraFrontXZ realMath st.cameraFront) = 1 := by
      simp only [Vec3.dot, hu.2]
      linear_combination hu.1
    rw [hd]
    exact Real.sqrt_one
  · rw [length, hr]
    have hd : Vec3.dot (⟨-(cameraFrontXZ realMath st.cameraFront).z, 0,
        (cameraFrontXZ realMath st.cameraFront).x⟩ : Vec3 ℝ)
        ⟨-(cameraFrontXZ realMath st.cameraFront).z, 0,
          (cameraFrontXZ realMath st.cameraFront).x⟩ = 1 := by
      simp only [Vec3.dot]
      linear_combination hu.1
    rw [hd]
    exact Real.sqrt_one
  · rintro ⟨w, s, a, d⟩ hcount
    rw [displacement_length st h]
    cases w <;> cases s <;> cases a <;> cases d <;>
      first
      | exact absurd hcount (by decide)
      | simp only [pressed, Bool.false_eq_true, if_true, if_false, h11, h12, h13, h14,
          Real.sqrt_one, mul_one]
  · rintro ⟨w, s, a, d⟩ hws had
    rw [displacement_length st h]
    cases w <;> cases s <;> cases a <;> cases d <;>
      first
      | exact absurd rfl hws
      | exact absurd rfl had
      | (simp only [pressed, Bool.false_eq_true, if_true, if_false, h21, h22, h23, h24]
         ring)

/-- Claim C14, witness: forward vector `(0, 0, -1)`, position `(0, 1.5, 3)`,
`deltaTime = 1`; with `W` alone the horizontal displacement has length `2.5`. -/
theorem processInput_directions_orthonormal_witness :
    (({ (initialState : State ℝ) with deltaTime := 1 }).cameraFront.x ≠ 0 ∨
      ({ (initialState : State ℝ) with deltaTime := 1 }).cameraFront.z ≠ 0) ∧
    length realMath
      ⟨(processInput realMath { (initialState : State ℝ) with deltaTime := 1 }
          ⟨true, false, false, false⟩).cameraPos.x - 0, 0,
       (processInput realMath { (initialState : State ℝ) with deltaTime := 1 }
          ⟨true, false, false, false⟩).cameraPos.z - 3⟩ = 5 / 2 := by
  have hfront : ({ (initialState : State ℝ) with deltaTime := 1 }).cameraFront.x ≠ 0 ∨
      ({ (initialState : State ℝ) with deltaTime := 1 }).cameraFront.z ≠ 0 := by
    right
    show (-1 : ℝ) ≠ 0
    norm_num
  have h := (processInput_directions_orthonormal
    { (initialState : State ℝ) with deltaTime := 1 } hfront).2.2.2.2.2.2.2.1
    ⟨true, false, false, false⟩ (by decide)
  refine ⟨hfront, ?_⟩
  have h1 : |(1 : ℝ)| = 1 := abs_one
  simp only [initialState, h1, mul_one] at h
  exact h

/-! ### Yaw accumulation over a sequence of samples -/

/-- From a state whose first-movement flag is cleared, a non-empty sequence of
samples moves the yaw by `0.1` times the distance from the stored `lastX` to
the last sample. -/
theorem mouse_sequence_yaw (M : MathLib α) :
    ∀ (ps : List (α × α)) (h : ps ≠ []) (st : State α), st.firstMouse = false →
      (ps.foldl (fun s p => mouse_callback M s p.1 p.2) st).cameraYaw =
        st.cameraYaw + 1 / 10 * ((ps.getLast h).1 - st.lastX)
  | [], h, _, _ => absurd rfl h
  | [p], _, st, hf => by
    rw [List.foldl_cons, List.foldl_nil, mouse_callback_eq, List.getLast_singleton]
    simp only [hf, sensitivity, Bool.false_eq_true, if_false]
    ring
  | p :: q :: ps, _, st, hf => by
    rw [List.foldl_cons,
      mouse_sequence_yaw M (q :: ps) (List.cons_ne_nil q ps) (mouse_callback M st p.1 p.2)
        (by rw [mouse_callback_eq]),
      List.getLast_cons_cons, mouse_callback_eq]
    simp only [hf, sensitivity, Bool.false_eq_true, if_false]
    ring

/-- Claim C15: from a state whose first-movement flag is set and whose yaw is
`yaw0`, after `mouse_callback` has processed the samples
`(x0, y0), ..., (xn, yn)` in order (`n ≥ 0`), the stored yaw is
`yaw0 + 0.1 * (xn - x0)`; so two sequences with the same first and last
horizontal coordinate leave the same yaw, whatever lies in between. -/
theorem mouse_callback_yaw_telescopes (M : MathLib α) (st : State α)
    (hflag : st.firstMouse = true) (p0 : α × α) (ps : List (α × α)) :
    ((p0 :: ps).foldl (fun s p => mouse_callback M s p.1 p.2) st).cameraYaw =
      st.cameraYaw + 1 / 10 * (((p0 :: ps).getLast (List.cons_ne_nil p0 ps)).1 - p0.1) ∧
    (∀ (mid1 mid2 : List (α × α)) (y0 xn yn1 yn2 : α),
      (((p0.1, y0) :: (mid1 ++ [(xn, yn1)])).foldl
        (fun s p => mouse_callback M s p.1 p.2) st).cameraYaw =
      (((p0.1, y0) :: (mid2 ++ [(xn, yn2)])).foldl
        (fun s p => mouse_callback M s p.1 p.2) st).cameraYaw) := by
  have first : ∀ q : α × α,
      (mouse_callback M st q.1 q.2).firstMouse = false ∧
      (mouse_callback M st q.1 q.2).lastX = q.1 ∧
      (mouse_callback M st q.1 q.2).cameraYaw = st.cameraYaw := by
    intro q
    rw [mouse_callback_eq]
    refine ⟨rfl, rfl, ?_⟩
    simp only [hflag, if_true, sub_self, zero_mul, add_zero]
  have main : ∀ (q : α × α) (qs : List (α × α)),
      ((q :: qs).foldl (fun s p => mouse_callback M s p.1 p.2) st).cameraYaw =
        st.cameraYaw + 1 / 10 * (((q :: qs).getLast (List.cons_ne_nil q qs)).1 - q.1) := by
    intro q qs
    cases qs with
    | nil =>
      rw [List.foldl_cons, List.foldl_nil, (first q).2.2, List.getLast_singleton]
      ring
    | cons r rs =>
      rw [List.foldl_cons,
        mouse_sequence_yaw M (r :: rs) (List.cons_ne_nil r rs) _ (first q).1,
        (first q).2.2, (first q).2.1, List.getLast_cons_cons]
  refine ⟨main p0 ps, ?_⟩
  intro mid1 mid2 y0 xn yn1 yn2
  rw [main, main]
  have hl : ∀ (mid : List (α × α)) (yn : α),
      (((p0.1, y0) :: (mid ++ [(xn, yn)])).getLast
        (List.cons_ne_nil (p0.1, y0) (mid ++ [(xn, yn)]))).1 = xn := by
    intro mid yn
    have hcons : (p0.1, y0) :: (mid ++ [(xn, yn)]) = ((p0.1, y0) :: mid) ++ [(xn, yn)] := rfl
    simp only [hcons, List.getLast_append_singleton]
  rw [hl, hl]

/-- Claim C15, witness: the initial state (yaw `-90`, flag set) and the
samples `(100, 200), (300, 50), (250, 10)`: the yaw ends at
`-90 + 0.1 * (250 - 100) = -75`. -/
theorem mouse_callback_yaw_telescopes_witness :
    (initialState : State ℝ).firstMouse = true ∧
    (([((100 : ℝ), (200 : ℝ)), (300, 50), (250, 10)]).foldl
      (fun s p => mouse_callback realMath s p.1 p.2) initialState).cameraYaw = -75 := by
  have h := (mouse_callback_yaw_telescopes realMath initialState rfl
    ((100 : ℝ), (200 : ℝ)) [(300, 50), (250, 10)]).1
  refine ⟨rfl, ?_⟩
  rw [h]
  simp only [initialState, List.getLast_cons_cons, List.getLast_singleton]
  norm_num

/-! ### Draw calls of one frame -/

/-- The quad array holds 6 vertices (30 floats, 5 per vertex). -/
theorem vertexCount_VAO : vertexCount VertexArray.VAO = 6 := by
  simp only [vertexCount, vertices, floatsPerVertex, List.length_cons, List.length_nil]

set_option maxRecDepth 8000 in
/-- The cube array holds 36 vertices (180 floats, 5 per vertex). -/
theorem vertexCount_cubeVAO : vertexCount VertexArray.cubeVAO = 36 := by
  simp only [vertexCount, cubeVertices, floatsPerVertex, List.length_cons, List.length_nil]

/-- Claim C13, divergence: the quad array `VAO` holds 6 vertices and
`cubeVAO` 36; of the 27 draw calls of a frame, the first 10 (floors and
ceilings) and the last (the cube) stay within the bound array, but the 16
calls for the walls and paintings (lines 515-635) request vertices `0..35`
while the array set by the most recent `glBindVertexArray` (line 504) is the
quad array: the call at line 515 is the draw call number 10 (counted from 0),
issued with `VAO` bound and `first + count = 36 > 6`. -/
theorem frame_draws_exceed_quad_array :
    vertexCount VertexArray.VAO = 6 ∧
    vertexCount VertexArray.cubeVAO = 36 ∧
    (draws VertexArray.zero frameCalls).length = 27 ∧
    (draws VertexArray.zero frameCalls)[10]? = some ⟨VertexArray.VAO, 0, 36⟩ ∧
    Draw.inRange ⟨VertexArray.VAO, 0, 36⟩ = false ∧
    (draws VertexArray.zero frameCalls).map Draw.inRange =
      List.replicate 10 true ++ List.replicate 16 false ++ [true] ∧
    ¬ (∀ d ∈ draws VertexArray.zero frameCalls, d.first + d.count ≤ vertexCount d.bound) := by
  have hquad : vertexCount VertexArray.VAO = 6 := vertexCount_VAO
  have hcube : vertexCount VertexArray.cubeVAO = 36 := vertexCount_cubeVAO
  have hbad : Draw.inRange ⟨VertexArray.VAO, 0, 36⟩ = false := by
    simp only [Draw.inRange, hquad]
    decide
  refine ⟨hquad, hcube, rfl, rfl, hbad, ?_, ?_⟩
  · simp only [frameCalls, draws, List.map, Draw.inRange, hquad, hcube]
    decide
  · intro hall
    have hmem : (⟨VertexArray.VAO, 0, 36⟩ : Draw) ∈ draws VertexArray.zero frameCalls := by
      simp only [frameCalls, draws]
      decide
    have h := hall ⟨VertexArray.VAO, 0, 36⟩ hmem
    rw [hquad] at h
    exact absurd h (by decide)

end Theorems

end Gallery
